import Mathlib

/-!
Verification of the UNSEEN marine-heatwave analysis repository.

This file gives a shallow embedding, over exact rational arithmetic, of the
statistical core in `src/methods/unseen.py`, the calendar/season extractor in
`src/methods/utils.py`, and the region-validation step of `src/figure3.py`,
and proves or refutes the frozen specification claims about them.

Modelling conventions:
* floating-point values are modelled as rationals `ℚ`; NaN (which enters only
  through rolling-window edges and leap-year padding) is modelled as `none`
  in `Option ℚ`;
* labeled one-dimensional xarray coordinates are modelled as association
  lists `List (coord × value)`, and `.sel` as `List.lookup`;
* Python exceptions are modelled with `Except String`, the message recording
  the exception class raised by the original code;
* `np.random` draws are modelled by an arbitrary stream `rng : ℕ → ℕ`,
  reduced modulo the sample size exactly as `np.random.randint(0, size)`
  constrains its output.
-/

/-- Data value of the embedding: `some q` is an ordinary float, `none` is NaN. -/
abbrev QV := Option ℚ

/-- numpy elementwise comparison `a <= x` for a possibly-NaN left operand:
any comparison with NaN is `False`. -/
def qleB (a : QV) (x : ℚ) : Bool :=
  match a with
  | some v => decide (v ≤ x)
  | none => false

/-- Embedding of `_calc_percentile` (src/methods/unseen.py:8-12):
`100 - (np.count_nonzero(arr <= x) / arr.size * 100)`. -/
def calc_percentile (arr : List QV) (x : ℚ) : ℚ :=
  100 - ((arr.countP (fun a => qleB a x) : ℚ) / (arr.length : ℚ) * 100)

/-- Embedding of `np.arange(start, stop, step)` for positive `step`:
the values `start + k * step` for `0 ≤ k < ⌈(stop - start) / step⌉`. -/
def arange (start stop step : ℚ) : List ℚ :=
  (List.range (Int.ceil ((stop - start) / step)).toNat).map
    (fun (k : ℕ) => start + (k : ℚ) * step)

/-- Embedding of the per-region inner loop of `get_funcstrength_risk`
(src/methods/unseen.py:132): `risks_tmp = [_calc_percentile(arr, x_base + incre)
for incre in increments]`. -/
def risks_tmp (arr : List QV) (x_base : ℚ) (increments : List ℚ) : List ℚ :=
  increments.map (fun incre => calc_percentile arr (x_base + incre))

/-- Embedding of `get_funcstrength_risk` (src/methods/unseen.py:120-140).
The UNSEEN distribution is one flat sample per region; `focus_event` is a
region-labeled scalar; the output pairs each region with its risk row over
`np.arange(0, degr_gthan + degr_step, degr_step)`.  A missing region in
`focus_event.sel` raises (KeyError), modelled as `.error`. -/
def get_funcstrength_risk (unseen_distr : List (String × List QV))
    (focus_event : List (String × ℚ)) (degr_gthan degr_step : ℚ) :
    Except String (List (String × List ℚ)) :=
  match unseen_distr with
  | [] => .ok []
  | (region, arr) :: rest =>
    match focus_event.lookup region with
    | none => .error ("KeyError: " ++ region)
    | some x_base =>
      match get_funcstrength_risk rest focus_event degr_gthan degr_step with
      | .error e => .error e
      | .ok out =>
        .ok ((region, risks_tmp arr x_base
              (arange 0 (degr_gthan + degr_step) degr_step)) :: out)

/-- Structural lemma: a successful `get_funcstrength_risk` output row `ri`
is the `risks_tmp` row of input row `ri`. -/
theorem get_funcstrength_risk_get (unseen_distr : List (String × List QV))
    (focus_event : List (String × ℚ)) (degr_gthan degr_step : ℚ)
    (out : List (String × List ℚ)) (ri : ℕ) (region : String) (arr : List QV)
    (hok : get_funcstrength_risk unseen_distr focus_event degr_gthan degr_step
            = .ok out)
    (hr : unseen_distr.get? ri = some (region, arr)) :
    ∃ x_base, focus_event.lookup region = some x_base ∧
      out.get? ri = some (region, risks_tmp arr x_base
        (arange 0 (degr_gthan + degr_step) degr_step)) := by
  induction unseen_distr generalizing out ri with
  | nil => simp at hr
  | cons hd tl ih =>
    obtain ⟨rg, a⟩ := hd
    simp only [get_funcstrength_risk] at hok
    cases hlk : List.lookup rg focus_event with
    | none => rw [hlk] at hok; exact Except.noConfusion hok
    | some x =>
      rw [hlk] at hok
      cases hrec : get_funcstrength_risk tl focus_event degr_gthan degr_step with
      | error e => rw [hrec] at hok; exact Except.noConfusion hok
      | ok out2 =>
        rw [hrec] at hok
        cases hok
        cases ri with
        | zero =>
          simp only [List.get?_cons_zero, Option.some.injEq] at hr
          cases hr
          exact ⟨x, hlk, rfl⟩
        | succ n =>
          simp only [List.get?_cons_succ] at hr ⊢
          exact ih out2 n hrec hr

/-- countP over a constant list. -/
theorem countP_replicate {α : Type} (p : α → Bool) (n : ℕ) (a : α) :
    (List.replicate n a).countP p = if p a then n else 0 := by
  induction n with
  | zero => simp
  | succ n ih =>
    simp only [List.replicate_succ, List.countP_cons, ih]
    split <;> simp_all

/-- Entry `j` of `np.arange(start, stop, step)`. -/
theorem arange_get? (start stop step : ℚ) (j : ℕ)
    (hj : j < (Int.ceil ((stop - start) / step)).toNat) :
    (arange start stop step).get? j = some (start + (j : ℚ) * step) := by
  unfold arange
  rw [List.get?_map, List.get?_range hj]
  rfl

/-- The arange grid used by the risk estimators is non-empty when the step is
positive and the upper bound non-negative. -/
theorem arange_length (start stop step : ℚ) :
    (arange start stop step).length = (Int.ceil ((stop - start) / step)).toNat := by
  unfold arange
  rw [List.length_map, List.length_range]

/-- Exceedance probability is antitone in the threshold: equality counts as
non-exceeding, so a larger threshold can only exclude more of the sample. -/
theorem calc_percentile_anti (arr : List QV) {x y : ℚ} (hxy : x ≤ y) :
    calc_percentile arr y ≤ calc_percentile arr x := by
  unfold calc_percentile
  have hcount : arr.countP (fun a => qleB a x) ≤ arr.countP (fun a => qleB a y) := by
    refine List.countP_mono_left (fun a _ ha => ?_)
    cases a with
    | none => simp [qleB] at ha
    | some v =>
      simp only [qleB, decide_eq_true_eq] at ha ⊢
      exact le_trans ha hxy
  have hdiv : ((arr.countP (fun a => qleB a x) : ℚ)) / (arr.length : ℚ) * 100
      ≤ ((arr.countP (fun a => qleB a y) : ℚ)) / (arr.length : ℚ) * 100 := by
    refine mul_le_mul_of_nonneg_right ?_ (by norm_num)
    exact div_le_div_of_nonneg_right (by exact_mod_cast hcount) (Nat.cast_nonneg _)
  linarith

/-- Exceedance probability of a threshold at least as large as every sample
value is zero: equal values count as non-exceeding. -/
theorem calc_percentile_const (C x : ℚ) (n : ℕ) (hn : n ≠ 0) (hx : C ≤ x) :
    calc_percentile (List.replicate n (some C)) x = 0 := by
  unfold calc_percentile
  have hc : (List.replicate n (some C)).countP (fun a => qleB a x) = n := by
    rw [countP_replicate]; simp [qleB, hx]
  rw [hc, List.length_replicate, div_self (by exact_mod_cast hn)]
  ring

/-- C1: for every non-empty empirical sample and threshold, the risk row
returned by `get_funcstrength_risk` holds, at grid position `j`, exactly
`100 - count(sample <= focus + increment) / sample_size * 100`; equality
counts as non-exceeding (the comparison in `qleB` is right-closed), so for
a sample whose values all equal a constant `C` and a focus event equal to
`C`, the risk at increment `0` is `0`. -/
theorem C1_exceedance_formula
    (unseen_distr : List (String × List QV)) (focus_event : List (String × ℚ))
    (degr_gthan degr_step : ℚ) (out : List (String × List ℚ))
    (ri : ℕ) (region : String) (arr : List QV) (x_base : ℚ)
    (hok : get_funcstrength_risk unseen_distr focus_event degr_gthan degr_step
            = .ok out)
    (hr : unseen_distr.get? ri = some (region, arr))
    (hx : focus_event.lookup region = some x_base)
    (hne : arr ≠ []) :
    out.get? ri = some (region, risks_tmp arr x_base
        (arange 0 (degr_gthan + degr_step) degr_step))
    ∧ (∀ j incre,
        (arange 0 (degr_gthan + degr_step) degr_step).get? j = some incre →
        (risks_tmp arr x_base (arange 0 (degr_gthan + degr_step) degr_step)).get? j
          = some (100 - ((arr.countP (fun a => qleB a (x_base + incre)) : ℚ)
              / (arr.length : ℚ) * 100)))
    ∧ (∀ (C : ℚ) (n : ℕ), arr = List.replicate n (some C) → x_base = C →
        0 < degr_step → 0 ≤ degr_gthan →
        (risks_tmp arr x_base
          (arange 0 (degr_gthan + degr_step) degr_step)).get? 0 = some 0) := by
  obtain ⟨x2, hx2, hget⟩ :=
    get_funcstrength_risk_get unseen_distr focus_event degr_gthan degr_step
      out ri region arr hok hr
  have hxx : x2 = x_base := by
    rw [hx] at hx2
    injection hx2 with h
    exact h.symm
  subst hxx
  refine ⟨hget, ?_, ?_⟩
  · intro j incre hj
    simp only [risks_tmp, List.get?_map, hj, Option.map_some']
    rfl
  · intro C n harr hxC hstep hgthan
    have hn : n ≠ 0 := by
      intro h0; subst h0; simp at harr; exact hne harr
    have hlen : 0 < (Int.ceil ((degr_gthan + degr_step - 0) / degr_step)).toNat := by
      have hq : 0 < (degr_gthan + degr_step - 0) / degr_step := by
        apply div_pos _ hstep
        linarith
      have := Int.ceil_pos.mpr hq
      omega
    have h0 : (arange 0 (degr_gthan + degr_step) degr_step).get? 0
        = some (0 + ((0 : ℕ) : ℚ) * degr_step) :=
      arange_get? 0 (degr_gthan + degr_step) degr_step 0 hlen
    simp only [risks_tmp, List.get?_map, h0, Option.map_some']
    rw [harr, hxC]
    rw [calc_percentile_const C _ n hn (by push_cast; linarith)]

/-- Witness for C1 at a concrete input: a constant two-element sample equal
to the focus event, grid max 1 with step 1; the risk at increment 0 is 0. -/
theorem C1_exceedance_formula_witness :
    (get_funcstrength_risk [("A", [some 1, some 1])] [("A", (1 : ℚ))] 1 1
      = .ok [("A", [0, 0])])
    ∧ ([("A", [some (1 : ℚ), some 1])].get? 0 = some ("A", [some 1, some 1]))
    ∧ ([("A", (1 : ℚ))].lookup "A" = some 1)
    ∧ ((risks_tmp [some 1, some 1] 1 (arange 0 (1 + 1) 1)).get? 0 = some 0) := by
  refine ⟨by with_unfolding_all rfl, rfl, rfl, ?_⟩
  exact (C1_exceedance_formula [("A", [some 1, some 1])] [("A", (1 : ℚ))] 1 1
    [("A", [0, 0])] 0 "A" [some 1, some 1] 1
    (by with_unfolding_all rfl) rfl rfl (by simp)).2.2 1 2 rfl rfl
    (by norm_num) (by norm_num)

/-- C2: for a fixed non-empty distribution and focus event, the risk row of
`get_funcstrength_risk` is monotonically non-increasing along the increment
grid: grid position `j1 ≤ j2` implies risk at `j2` is at most risk at `j1`. -/
theorem C2_risk_monotone
    (unseen_distr : List (String × List QV)) (focus_event : List (String × ℚ))
    (degr_gthan degr_step : ℚ) (out : List (String × List ℚ))
    (ri : ℕ) (region : String) (arr : List QV) (row : List ℚ)
    (j1 j2 : ℕ) (r1 r2 : ℚ)
    (hok : get_funcstrength_risk unseen_distr focus_event degr_gthan degr_step
            = .ok out)
    (hr : unseen_distr.get? ri = some (region, arr))
    (hne : arr ≠ [])
    (hstep : 0 ≤ degr_step)
    (hrow : out.get? ri = some (region, row))
    (hj : j1 ≤ j2)
    (h1 : row.get? j1 = some r1)
    (h2 : row.get? j2 = some r2) :
    r2 ≤ r1 := by
  obtain ⟨x, hx, hget⟩ :=
    get_funcstrength_risk_get unseen_distr focus_event degr_gthan degr_step
      out ri region arr hok hr
  rw [hget] at hrow
  have hroweq : row = risks_tmp arr x (arange 0 (degr_gthan + degr_step) degr_step) := by
    have := Option.some.injEq _ _ ▸ hrow
    exact (Prod.mk.injEq _ _ _ _ ▸ this).2.symm
  subst hroweq
  have hlen2 : j2 < (Int.ceil ((degr_gthan + degr_step - 0) / degr_step)).toNat := by
    have := List.get?_eq_some.mp h2
    obtain ⟨hlt, -⟩ := this
    rw [risks_tmp, List.length_map, arange_length] at hlt
    exact hlt
  have hlen1 : j1 < (Int.ceil ((degr_gthan + degr_step - 0) / degr_step)).toNat :=
    lt_of_le_of_lt hj hlen2
  have hv1 : r1 = calc_percentile arr (x + (0 + (j1 : ℚ) * degr_step)) := by
    have harr := arange_get? 0 (degr_gthan + degr_step) degr_step j1 hlen1
    simp only [risks_tmp, List.get?_map, harr, Option.map_some'] at h1
    exact (Option.some.injEq _ _ ▸ h1).symm
  have hv2 : r2 = calc_percentile arr (x + (0 + (j2 : ℚ) * degr_step)) := by
    have harr := arange_get? 0 (degr_gthan + degr_step) degr_step j2 hlen2
    simp only [risks_tmp, List.get?_map, harr, Option.map_some'] at h2
    exact (Option.some.injEq _ _ ▸ h2).symm
  rw [hv1, hv2]
  apply calc_percentile_anti
  have : (j1 : ℚ) * degr_step ≤ (j2 : ℚ) * degr_step := by
    apply mul_le_mul_of_nonneg_right _ hstep
    exact_mod_cast hj
  linarith

/-- Witness for C2 at a concrete input: sample [1, 2], focus 1, steps of 1;
risk falls from 50 percent at increment 0 to 0 percent at increment 1. -/
theorem C2_risk_monotone_witness :
    (get_funcstrength_risk [("A", [some 1, some 2])] [("A", (1 : ℚ))] 1 1
      = .ok [("A", [50, 0])])
    ∧ ((0 : ℚ) ≤ 50) := by
  constructor
  · with_unfolding_all rfl
  · exact C2_risk_monotone [("A", [some 1, some 2])] [("A", (1 : ℚ))] 1 1
      [("A", [50, 0])] 0 "A" [some 1, some 2] [50, 0] 0 1 50 0
      (by with_unfolding_all rfl) rfl (by simp) (by norm_num)
      (by with_unfolding_all rfl) (by norm_num) rfl rfl

/-- Result record of `scipy.stats.linregress`: the slope and intercept of the
ordinary least-squares line (the only fields the repository uses). -/
structure LinregressResult where
  slope : ℚ
  intercept : ℚ

/-- Embedding of the slope/intercept computation of
`scipy.stats.linregress(x, y)`: slope = cov(x,y)/var(x), intercept =
mean(y) - slope * mean(x). -/
def linregress (xs ys : List ℚ) : LinregressResult :=
  let n : ℚ := (xs.length : ℚ)
  let xm := xs.sum / n
  let ym := ys.sum / n
  let cov := ((xs.zip ys).map (fun p => (p.1 - xm) * (p.2 - ym))).sum
  let varx := (xs.map (fun x => (x - xm) ^ 2)).sum
  { slope := cov / varx, intercept := ym - cov / varx * xm }

/-- The `system` argument of `_get_pivot_arr`: `"obs"` or `"model"`. -/
inductive TrendSystem
  | obs
  | model
deriving DecidableEq

/-- Embedding of `_get_pivot_arr` (src/methods/unseen.py:15-62).
`seasonal_dat` is the per-region seasonal-mean series as year-labeled pairs;
the original passes the full seasonal dataset and selects the region inside
(and, for `system="model"`, averages across realisations before regressing) —
callers of this embedding perform that selection/average and pass the
resulting year-labeled series.  `y_pred.sel(year=year)` is `List.lookup`;
a missing pivot year raises (KeyError), and a missing `extrapolate_yrs`
with `extrapolated=True` raises ValueError, both modelled as `.error`. -/
def get_pivot_arr (seasonal_dat : List (ℚ × ℚ)) (year : ℚ)
    (hindcast_years : List ℚ) (system : TrendSystem)
    (extrapolated : Bool) (extrapolate_yrs : Option (List ℚ)) :
    Except String (List (ℚ × ℚ)) :=
  if extrapolated ∧ extrapolate_yrs = none then
    .error "ValueError: extrapolate_yrs array must be provided if extrapolated=True"
  else
    let regr := linregress (seasonal_dat.map Prod.fst) (seasonal_dat.map Prod.snd)
    let y_pred : List (ℚ × ℚ) :=
      match system with
      | .obs =>
        seasonal_dat.map (fun p => (p.1, regr.slope * p.1 + regr.intercept))
      | .model =>
        if extrapolated then
          (extrapolate_yrs.getD []).map
            (fun y => (y, regr.slope * y + regr.intercept))
        else
          seasonal_dat.map (fun p => (p.1, regr.slope * p.1 + regr.intercept))
    match y_pred.lookup year with
    | none => .error "KeyError: year not found in y_pred"
    | some y_point =>
      match system with
      | .obs =>
        .ok (hindcast_years.map
          (fun hy => (hy, regr.slope * hy + regr.intercept - y_point)))
      | .model =>
        if extrapolated then
          .ok (seasonal_dat.map
            (fun p => (p.1, regr.slope * p.1 + regr.intercept - y_point)))
        else
          .ok (y_pred.map (fun p => (p.1, p.2 - y_point)))

/-- Looking up a key in the graph of a function evaluated along a list
returns the function value at that key. -/
theorem lookup_graph_eval {β : Type} (l : List β) (g : β → ℚ) (f : ℚ → ℚ)
    (k v : ℚ) (h : (l.map (fun b => (g b, f (g b)))).lookup k = some v) :
    v = f k := by
  induction l with
  | nil => simp at h
  | cons b t ih =>
    simp only [List.map_cons, List.lookup] at h
    split at h
    next hbeq =>
      injection h with h2
      rw [eq_of_beq hbeq]
      exact h2.symm
    next hbeq => exact ih h

/-- C3: for both trend systems, whenever the pivot year is among the years at
which the offset array returned by `_get_pivot_arr` is evaluated, the offset
at the pivot year is exactly `0` (the embedding uses exact rationals), so
subtracting the offsets leaves the pivot year undisturbed. -/
theorem C3_pivot_offset_zero (seasonal_dat : List (ℚ × ℚ)) (year : ℚ)
    (hindcast_years : List ℚ) (system : TrendSystem)
    (extrapolated : Bool) (extrapolate_yrs : Option (List ℚ))
    (out : List (ℚ × ℚ)) (v : ℚ)
    (hok : get_pivot_arr seasonal_dat year hindcast_years system
            extrapolated extrapolate_yrs = .ok out)
    (hv : out.lookup year = some v) :
    v = 0 := by
  unfold get_pivot_arr at hok
  split at hok
  · exact Except.noConfusion hok
  · set regr := linregress (seasonal_dat.map Prod.fst) (seasonal_dat.map Prod.snd)
      with hregr
    cases system with
    | obs =>
      simp only at hok
      cases hlk : (seasonal_dat.map
          (fun p => (p.1, regr.slope * p.1 + regr.intercept))).lookup year with
      | none => rw [hlk] at hok; exact Except.noConfusion hok
      | some y_point =>
        rw [hlk] at hok
        cases hok
        have hyp : y_point = regr.slope * year + regr.intercept :=
          lookup_graph_eval seasonal_dat Prod.fst
            (fun y => regr.slope * y + regr.intercept) year y_point hlk
        have hvv : v = regr.slope * year + regr.intercept - y_point :=
          lookup_graph_eval hindcast_years id
            (fun y => regr.slope * y + regr.intercept - y_point) year v hv
        rw [hvv, hyp]; ring
    | model =>
      cases hex : extrapolated with
      | true =>
        simp only [hex, if_true] at hok
        cases hlk : ((extrapolate_yrs.getD []).map
            (fun y => (y, regr.slope * y + regr.intercept))).lookup year with
        | none => rw [hlk] at hok; exact Except.noConfusion hok
        | some y_point =>
          rw [hlk] at hok
          cases hok
          have hyp : y_point = regr.slope * year + regr.intercept :=
            lookup_graph_eval (extrapolate_yrs.getD []) id
              (fun y => regr.slope * y + regr.intercept) year y_point hlk
          have hvv : v = regr.slope * year + regr.intercept - y_point :=
            lookup_graph_eval seasonal_dat Prod.fst
              (fun y => regr.slope * y + regr.intercept - y_point) year v hv
          rw [hvv, hyp]; ring
      | false =>
        simp only [hex, Bool.false_eq_true, if_false] at hok
        cases hlk : (seasonal_dat.map
            (fun p => (p.1, regr.slope * p.1 + regr.intercept))).lookup year with
        | none => rw [hlk] at hok; exact Except.noConfusion hok
        | some y_point =>
          rw [hlk] at hok
          cases hok
          have hyp : y_point = regr.slope * year + regr.intercept :=
            lookup_graph_eval seasonal_dat Prod.fst
              (fun y => regr.slope * y + regr.intercept) year y_point hlk
          rw [List.map_map] at hv
          have hvv : v = regr.slope * year + regr.intercept - y_point :=
            lookup_graph_eval seasonal_dat Prod.fst
              (fun y => regr.slope * y + regr.intercept - y_point) year v hv
          rw [hvv, hyp]; ring

set_option maxRecDepth 100000 in
/-- Witness for C3 at a concrete input: an obs-system fit through
(2020, 1), (2021, 2) has slope 1, and the offset at pivot year 2021
(present in the hindcast years) is 0. -/
theorem C3_pivot_offset_zero_witness :
    (get_pivot_arr [(2020, 1), (2021, 2)] 2021 [2020, 2021] .obs false none
      = .ok [(2020, -1), (2021, 0)])
    ∧ (([((2020 : ℚ), (-1 : ℚ)), (2021, 0)]).lookup 2021 = some 0)
    ∧ ((0 : ℚ) = 0) := by
  refine ⟨by with_unfolding_all rfl, by with_unfolding_all rfl, ?_⟩
  exact C3_pivot_offset_zero [(2020, 1), (2021, 2)] 2021 [2020, 2021] .obs
    false none [(2020, -1), (2021, 0)] 0
    (by with_unfolding_all rfl) (by with_unfolding_all rfl)

/-- Arithmetic mean of a list, `np.mean`: sum divided by length. -/
def lmean (l : List ℚ) : ℚ := l.sum / (l.length : ℚ)

/-- Elementwise sum of two vectors (used to embed `xarray` means). -/
def vecAdd (a b : List ℚ) : List ℚ := List.zipWith (· + ·) a b

/-- Elementwise sum of two matrices. -/
def matAdd (a b : List (List ℚ)) : List (List ℚ) := List.zipWith vecAdd a b

/-- Elementwise mean of a list of vectors (`DataArray.mean` over the leading
axis of a stack of vectors). -/
def meanVecs (vs : List (List ℚ)) : List ℚ :=
  match vs with
  | [] => []
  | v :: rest =>
    (rest.foldl vecAdd v).map (fun x => x / (((rest.length + 1 : ℕ) : ℚ)))

/-- Elementwise mean of a list of matrices (`DataArray.mean` over the leading
axis of a stack of matrices). -/
def meanMats (ms : List (List (List ℚ))) : List (List ℚ) :=
  match ms with
  | [] => []
  | m :: rest =>
    (rest.foldl matAdd m).map
      (List.map (fun x => x / (((rest.length + 1 : ℕ) : ℚ))))

/-- The pooled model ensemble (`large_da` in the figure scripts): region
names, hindcast year labels, and values indexed
`data[region][realisation][year][time]`. -/
structure ModelDA where
  regions : List String
  years : List ℚ
  data : List (List (List (List ℚ)))

/-- The observational/model seasonal trend reference (`trend_data`): year
labels and daily seasonal values indexed `series[region][year][time]`. -/
structure TrendData where
  years : List ℚ
  series : List (List (List ℚ))

/-- `trend_data.mean("time")` followed by `isel(region=r)`: the year-labeled
seasonal-mean series of region `r` passed to `_get_pivot_arr`. -/
def seasonal_mean_series (td : TrendData) (r : ℕ) : List (ℚ × ℚ) :=
  td.years.zip ((td.series.getD r []).map lmean)

/-- `model_da.isel(region=r).mean("realisation").mean("year")`: the per-time
climatology subtracted to de-seasonalise. -/
def region_clim (rdat : List (List (List ℚ))) : List ℚ :=
  meanVecs (meanMats rdat)

/-- Subtracting a year-labeled detrend offset from one region of the model
data (`model_da - xr.concat(diff_trends, dim="region")`); xarray aligns the
offset by its year label. -/
def detrend_region (rdat : List (List (List ℚ))) (years : List ℚ)
    (dt : List (ℚ × ℚ)) : List (List (List ℚ)) :=
  rdat.map (fun real =>
    (years.zip real).map (fun p =>
      p.2.map (fun v => v - ((dt.lookup p.1).getD 0))))

/-- Subtracting the per-time climatology from one region
(`... - model_da.mean("realisation").mean("year")`). -/
def deseasonalise_region (rdat : List (List (List ℚ))) (clim : List ℚ) :
    List (List (List ℚ)) :=
  rdat.map (fun real => real.map (fun series =>
    (series.zip clim).map (fun p => p.1 - p.2)))

/-- Embedding of `DataArray.rolling(time=w, center=True).mean("time")` with
the xarray default `min_periods = w`: position `i` holds the mean of the
window ending at `i + w/2` when that window lies fully inside the series,
and NaN otherwise. -/
def rolling_mean_center (w : ℕ) (l : List ℚ) : List QV :=
  (List.range l.length).map (fun i =>
    let hi := i + w / 2
    if w ≤ hi + 1 ∧ hi < l.length then
      some (lmean ((l.drop (hi + 1 - w)).take w))
    else
      none)

/-- `DataArray.max("time")` with the default `skipna=True`: the maximum of
the non-NaN entries, NaN when there are none. -/
def nanmax (l : List QV) : QV :=
  l.foldl (fun acc a =>
    match acc, a with
    | none, _ => a
    | some m, none => some m
    | some m, some v => some (max m v)) none

/-- The per-region empirical UNSEEN sample: rolling seasonal extremum per
(realisation, year), stacked with `realisation` as the outer index
(`.stack(sample=("realisation", "year"))`). -/
def region_distribution (w : ℕ) (rdat : List (List (List ℚ))) : List QV :=
  (rdat.map (fun real =>
    real.map (fun series => nanmax (rolling_mean_center w series)))).flatten

/-- The detrend offsets of every region, in region order
(`diff_trends.append(_get_pivot_arr(**pivot_args))` over the region loop of
`get_unseen_distr`).  The first failing region aborts. -/
def collect_diff_trends (td : TrendData) (pivot_year : ℚ)
    (hindcast_years : List ℚ) (sys : TrendSystem) (ex : Bool)
    (exY : Option (List ℚ)) : List ℕ → Except String (List (List (ℚ × ℚ)))
  | [] => .ok []
  | r :: rest =>
    match get_pivot_arr (seasonal_mean_series td r) pivot_year hindcast_years
        sys ex exY with
    | .error e => .error e
    | .ok dt =>
      match collect_diff_trends td pivot_year hindcast_years sys ex exY rest with
      | .error e => .error e
      | .ok dts => .ok (dt :: dts)

/-- Embedding of `get_unseen_distr` (src/methods/unseen.py:65-117).  When
`last_detrend` is false the original still executes
`return large_stacked_reset, diff_trends`, but `diff_trends` is bound only
inside the `if last_detrend:` branch, so the `return` raises
`UnboundLocalError`; the embedding models that unhandled name-binding error
as `.error`. -/
def get_unseen_distr (model_da : ModelDA) (extr_avg_period : ℕ)
    (trend_data : TrendData) (last_detrend : Bool) (pivot_year : ℚ)
    (trend_source : TrendSystem) (extrapolated : Bool)
    (extr_year : Option (List ℚ)) :
    Except String (List (String × List QV) × List (List (ℚ × ℚ))) :=
  if extrapolated ∧ extr_year = none then
    .error "ValueError: extr_year array must be provided if extrapolated=True"
  else if last_detrend then
    let sys := trend_source
    let ex := if trend_source = .model then extrapolated else false
    let exY := if trend_source = .model then extr_year else none
    match collect_diff_trends trend_data pivot_year model_da.years sys ex exY
        (List.range model_da.regions.length) with
    | .error e => .error e
    | .ok diff_trends =>
      let distr := (List.range model_da.regions.length).map (fun r =>
        let rdat := model_da.data.getD r []
        let rdetr := detrend_region rdat model_da.years (diff_trends.getD r [])
        let rdz := deseasonalise_region rdetr (region_clim rdat)
        (model_da.regions.getD r "", region_distribution extr_avg_period rdz))
      .ok (distr, diff_trends)
  else
    .error "UnboundLocalError: local variable diff_trends referenced before assignment"

/-- C10: every call to `get_unseen_distr` with `last_detrend=False` (and the
extrapolation guard not triggering first) hits the unbound `diff_trends`
reference in the return statement and raises the name-binding error instead
of returning the (distribution, offsets) pair. -/
theorem C10_last_detrend_unbound
    (model_da : ModelDA) (extr_avg_period : ℕ) (trend_data : TrendData)
    (pivot_year : ℚ) (trend_source : TrendSystem) (extrapolated : Bool)
    (extr_year : Option (List ℚ))
    (hguard : ¬(extrapolated = true ∧ extr_year = none)) :
    get_unseen_distr model_da extr_avg_period trend_data false pivot_year
      trend_source extrapolated extr_year
    = .error
      "UnboundLocalError: local variable diff_trends referenced before assignment" := by
  unfold get_unseen_distr
  rw [if_neg hguard, if_neg (by simp : ¬(false = true))]

/-- Witness for C10 at a concrete input: a one-region, one-realisation,
one-year, one-timestep ensemble with `last_detrend=False`. -/
theorem C10_last_detrend_unbound_witness :
    ¬((false : Bool) = true ∧ (none : Option (List ℚ)) = none)
    ∧ (get_unseen_distr ⟨["A"], [2000], [[[[1]]]]⟩ 1 ⟨[2000], [[[1]]]⟩ false
        2024 .obs false none
      = .error
        "UnboundLocalError: local variable diff_trends referenced before assignment") := by
  refine ⟨by simp, ?_⟩
  exact C10_last_detrend_unbound ⟨["A"], [2000], [[[[1]]]]⟩ 1 ⟨[2000], [[[1]]]⟩
    2024 .obs false none (by simp)

/-- The per-region body of `calc_risks` inside `get_functime_risk`
(src/methods/unseen.py:203-241): for each pivot year, detrend with the
offsets referenced to that year, de-seasonalise, extract the rolling
seasonal maxima, stack, and take the percentile rank of the focus event. -/
def calc_risks_region (model_da : ModelDA) (td : TrendData) (w : ℕ) (x : ℚ)
    (r : ℕ) (sys : TrendSystem) (ex : Bool) (exY : Option (List ℚ)) :
    List ℚ → Except String (List (ℚ × ℚ))
  | [] => .ok []
  | yr :: rest =>
    match get_pivot_arr (seasonal_mean_series td r) yr model_da.years
        sys ex exY with
    | .error e => .error e
    | .ok dt =>
      let rdat := model_da.data.getD r []
      let rdz := deseasonalise_region (detrend_region rdat model_da.years dt)
        (region_clim rdat)
      let prob := calc_percentile (region_distribution w rdz) x
      match calc_risks_region model_da td w x r sys ex exY rest with
      | .error e => .error e
      | .ok probs => .ok ((yr, prob) :: probs)

/-- The region loop of `calc_risks` inside `get_functime_risk`: one row of
(pivot year, probability) pairs per region. -/
def calc_risks (model_da : ModelDA) (td : TrendData) (w : ℕ)
    (focus_event : List (String × ℚ)) (pivot_years : List ℚ)
    (sys : TrendSystem) (ex : Bool) (exY : Option (List ℚ)) :
    List ℕ → Except String (List (String × List (ℚ × ℚ)))
  | [] => .ok []
  | r :: rest =>
    let region := model_da.regions.getD r ""
    match focus_event.lookup region with
    | none => .error ("KeyError: " ++ region)
    | some x =>
      match calc_risks_region model_da td w x r sys ex exY pivot_years with
      | .error e => .error e
      | .ok probs =>
        match calc_risks model_da td w focus_event pivot_years sys ex exY rest with
        | .error e => .error e
        | .ok out => .ok ((region, probs) :: out)

/-- Embedding of `get_functime_risk` (src/methods/unseen.py:188-264): risks
over the core pivot years with the requested trend system, then — only if
`extrapolated` — a check that `extrapolate_yrs` was supplied (ValueError
otherwise) and a second pass over the extrapolated years with
`system="model"`. -/
def get_functime_risk (model_da : ModelDA) (td : TrendData) (w : ℕ)
    (focus_event : List (String × ℚ)) (core_pivot_yrs : List ℚ)
    (trend_source : TrendSystem) (extrapolated : Bool)
    (extrapolate_yrs : Option (List ℚ)) :
    Except String ((List (String × List (ℚ × ℚ)))
      × Option (List (String × List (ℚ × ℚ)))) :=
  match calc_risks model_da td w focus_event core_pivot_yrs trend_source
      false none (List.range model_da.regions.length) with
  | .error e => .error e
  | .ok risks =>
    if extrapolated then
      match extrapolate_yrs with
      | none =>
        .error "ValueError: extrapolate_yrs array must be provided if extrapolated=True"
      | some ys =>
        match calc_risks model_da td w focus_event ys .model true (some ys)
            (List.range model_da.regions.length) with
        | .error e => .error e
        | .ok risks_extrapolated => .ok (risks, some risks_extrapolated)
    else .ok (risks, none)

/-- One bootstrap resample, `arr[np.random.randint(0, arr.size, arr.size)]`:
the random stream is an arbitrary `rng`, reduced modulo the sample size
exactly as `randint` bounds its draws; `base` locates this resample's draws
in the stream. -/
def random_sample (rng : ℕ → ℕ) (base : ℕ) (arr : List QV) : List QV :=
  (List.range arr.length).map
    (fun j => arr.getD (rng (base + j) % arr.length) none)

/-- Embedding of `np.quantile(v, q)` with the default linear interpolation
between order statistics: with `s` the sorted sample of size `n` and
`h = q * (n - 1)`, the result is `s[⌊h⌋] + (h - ⌊h⌋) * (s[⌊h⌋ + 1] - s[⌊h⌋])`
(upper index clipped to `n - 1`). -/
def quantileLinear (q : ℚ) (l : List ℚ) : ℚ :=
  let s := l.insertionSort (· ≤ ·)
  let n := s.length
  if n = 0 then 0
  else
    let h : ℚ := q * ((n : ℚ) - 1)
    let i : ℕ := (Int.floor h).toNat
    let j : ℕ := min (i + 1) (n - 1)
    let g : ℚ := h - ((Int.floor h : ℤ) : ℚ)
    s.getD i 0 + g * (s.getD j 0 - s.getD i 0)

/-- The bootstrap region loop of `get_fs_perc_low_high`
(src/methods/unseen.py:156-170): per region and per increment,
`n_iterations` resampled percentile ranks. -/
def fs_bootstrap_regions (rng : ℕ → ℕ) (unseen_distr : List (String × List QV))
    (focus_event : List (String × ℚ)) (n_iterations : ℕ)
    (degr_gthan degr_step : ℚ) (ctr : ℕ) :
    Except String (List (String × List (List ℚ))) :=
  match unseen_distr with
  | [] => .ok []
  | (region, arr) :: rest =>
    match focus_event.lookup region with
    | none => .error ("KeyError: " ++ region)
    | some x_base =>
      let increments := arange 0 (degr_gthan + degr_step) degr_step
      let row := increments.enum.map (fun ki =>
        (List.range n_iterations).map (fun it =>
          calc_percentile
            (random_sample rng (ctr + (ki.1 * n_iterations + it) * arr.length) arr)
            (x_base + ki.2)))
      match fs_bootstrap_regions rng rest focus_event n_iterations degr_gthan
          degr_step (ctr + increments.length * n_iterations * arr.length) with
      | .error e => .error e
      | .ok out => .ok ((region, row) :: out)

/-- Embedding of `get_fs_perc_low_high` (src/methods/unseen.py:143-185): the
bootstrapped risks per (region, increment, iteration), reduced to the
`quantile_low` and `quantile_high` quantiles over the iteration axis. -/
def get_fs_perc_low_high (rng : ℕ → ℕ)
    (unseen_distr : List (String × List QV))
    (focus_event : List (String × ℚ)) (n_iterations : ℕ)
    (degr_gthan degr_step : ℚ) (quantile_low quantile_high : ℚ) :
    Except String (List (String × List ℚ) × List (String × List ℚ)) :=
  match fs_bootstrap_regions rng unseen_distr focus_event n_iterations
      degr_gthan degr_step 0 with
  | .error e => .error e
  | .ok boots =>
    .ok (boots.map (fun p => (p.1, p.2.map (quantileLinear quantile_low))),
         boots.map (fun p => (p.1, p.2.map (quantileLinear quantile_high))))

/-- The per-region pivot-year loop of `calc_bootstrap_quantiles` inside
`get_ft_perc_low_high` (src/methods/unseen.py:291-330): per pivot year,
`n_iterations` resampled percentile ranks of the focus event against the
re-detrended distribution. -/
def ft_bootstrap_region (rng : ℕ → ℕ) (model_da : ModelDA) (td : TrendData)
    (w : ℕ) (x : ℚ) (r : ℕ) (sys : TrendSystem) (ex : Bool)
    (exY : Option (List ℚ)) (n_iterations : ℕ) (ctr : ℕ) :
    List ℚ → Except String (List (List ℚ))
  | [] => .ok []
  | yr :: rest =>
    match get_pivot_arr (seasonal_mean_series td r) yr model_da.years
        sys ex exY with
    | .error e => .error e
    | .ok dt =>
      let rdat := model_da.data.getD r []
      let rdz := deseasonalise_region (detrend_region rdat model_da.years dt)
        (region_clim rdat)
      let arr := region_distribution w rdz
      let probs := (List.range n_iterations).map (fun it =>
        calc_percentile (random_sample rng (ctr + it * arr.length) arr) x)
      match ft_bootstrap_region rng model_da td w x r sys ex exY n_iterations
          (ctr + n_iterations * arr.length) rest with
      | .error e => .error e
      | .ok rows => .ok (probs :: rows)

/-- The region loop of `calc_bootstrap_quantiles` inside
`get_ft_perc_low_high`. -/
def ft_bootstrap_regions (rng : ℕ → ℕ) (model_da : ModelDA) (td : TrendData)
    (w : ℕ) (focus_event : List (String × ℚ)) (pivot_years : List ℚ)
    (sys : TrendSystem) (ex : Bool) (exY : Option (List ℚ))
    (n_iterations : ℕ) (ctr : ℕ) :
    List ℕ → Except String (List (String × List (List ℚ)))
  | [] => .ok []
  | r :: rest =>
    let region := model_da.regions.getD r ""
    match focus_event.lookup region with
    | none => .error ("KeyError: " ++ region)
    | some x =>
      match ft_bootstrap_region rng model_da td w x r sys ex exY n_iterations
          ctr pivot_years with
      | .error e => .error e
      | .ok rows =>
        match ft_bootstrap_regions rng model_da td w focus_event pivot_years
            sys ex exY n_iterations (ctr + pivot_years.length * n_iterations)
            rest with
        | .error e => .error e
        | .ok out => .ok ((region, rows) :: out)

/-- `calc_bootstrap_quantiles` inside `get_ft_perc_low_high`
(src/methods/unseen.py:285-340): bootstrapped risks reduced to the low and
high quantiles over the iteration axis. -/
def calc_bootstrap_quantiles (rng : ℕ → ℕ) (model_da : ModelDA)
    (td : TrendData) (w : ℕ) (focus_event : List (String × ℚ))
    (pivot_years : List ℚ) (sys : TrendSystem) (ex : Bool)
    (exY : Option (List ℚ)) (n_iterations : ℕ)
    (quantile_low quantile_high : ℚ) :
    Except String (List (String × List ℚ) × List (String × List ℚ)) :=
  match ft_bootstrap_regions rng model_da td w focus_event pivot_years sys ex
      exY n_iterations 0 (List.range model_da.regions.length) with
  | .error e => .error e
  | .ok boots =>
    .ok (boots.map (fun p => (p.1, p.2.map (quantileLinear quantile_low))),
         boots.map (fun p => (p.1, p.2.map (quantileLinear quantile_high))))

/-- Embedding of `get_ft_perc_low_high` (src/methods/unseen.py:267-364):
quantile bands over the core pivot years, then — only if `extrapolated` — a
ValueError check for `extrapolate_yrs` and a second, `system="model"` pass. -/
def get_ft_perc_low_high (rng : ℕ → ℕ) (model_da : ModelDA) (td : TrendData)
    (w : ℕ) (focus_event : List (String × ℚ)) (n_iterations : ℕ)
    (core_pivot_yrs : List ℚ) (trend_source : TrendSystem)
    (extrapolated : Bool) (extrapolate_yrs : Option (List ℚ))
    (quantile_low quantile_high : ℚ) :
    Except String ((List (String × List ℚ) × List (String × List ℚ))
      × Option (List (String × List ℚ) × List (String × List ℚ))) :=
  match calc_bootstrap_quantiles rng model_da td w focus_event core_pivot_yrs
      trend_source false none n_iterations quantile_low quantile_high with
  | .error e => .error e
  | .ok core =>
    if extrapolated then
      match extrapolate_yrs with
      | none =>
        .error "ValueError: extrapolate_yrs array must be provided if extrapolated=True"
      | some ys =>
        match calc_bootstrap_quantiles rng model_da td w focus_event ys .model
            true (some ys) n_iterations quantile_low quantile_high with
        | .error e => .error e
        | .ok extra => .ok (core, some extra)
    else .ok (core, none)

/-- Indexing a sorted list with `getD` is monotone within bounds. -/
theorem sorted_getD_mono {s : List ℚ} (hs : s.Sorted (· ≤ ·)) {a b : ℕ}
    (hab : a ≤ b) (hb : b < s.length) : s.getD a 0 ≤ s.getD b 0 := by
  rcases lt_or_eq_of_le hab with h | h
  · have ha : a < s.length := lt_trans h hb
    have hrel := List.pairwise_iff_get.mp hs ⟨a, ha⟩ ⟨b, hb⟩ h
    rw [List.getD_eq_getElem s 0 ha, List.getD_eq_getElem s 0 hb]
    simpa using hrel
  · subst h
    exact le_refl _

/-- The linear-interpolation quantile estimator is monotone in the
probability level on `[0, 1]`. -/
theorem quantileLinear_mono (l : List ℚ) {q1 q2 : ℚ} (h0 : 0 ≤ q1)
    (h12 : q1 ≤ q2) (h1 : q2 ≤ 1) :
    quantileLinear q1 l ≤ quantileLinear q2 l := by
  unfold quantileLinear
  have hsorted : (l.insertionSort (· ≤ ·)).Sorted (· ≤ ·) :=
    List.sorted_insertionSort (· ≤ ·) l
  set s := l.insertionSort (· ≤ ·) with hsdef
  by_cases hn : s.length = 0
  · simp [hn]
  · simp only [hn, if_false]
    have hn1 : 1 ≤ s.length := Nat.one_le_iff_ne_zero.mpr hn
    have hnn : (0 : ℚ) ≤ (s.length : ℚ) - 1 := by
      have : (1 : ℚ) ≤ (s.length : ℚ) := by exact_mod_cast hn1
      linarith
    set h1q : ℚ := q1 * ((s.length : ℚ) - 1) with hh1def
    set h2q : ℚ := q2 * ((s.length : ℚ) - 1) with hh2def
    have hh0 : 0 ≤ h1q := mul_nonneg h0 hnn
    have hh0' : 0 ≤ h2q := mul_nonneg (le_trans h0 h12) hnn
    have hh12 : h1q ≤ h2q := mul_le_mul_of_nonneg_right h12 hnn
    have hh2top : h2q ≤ (s.length : ℚ) - 1 := mul_le_of_le_one_left hnn h1
    have hfl1 : (0 : ℤ) ≤ Int.floor h1q := Int.floor_nonneg.mpr hh0
    have hfl2 : (0 : ℤ) ≤ Int.floor h2q := Int.floor_nonneg.mpr hh0'
    have hfl12 : Int.floor h1q ≤ Int.floor h2q := Int.floor_le_floor hh12
    have hfl2top : Int.floor h2q ≤ (s.length : ℤ) - 1 := by
      have hcast : ((s.length : ℚ) - 1) = (((s.length : ℤ) - 1 : ℤ) : ℚ) := by
        push_cast; ring
      have := Int.floor_le_floor hh2top
      rwa [hcast, Int.floor_intCast] at this
    set i1 : ℕ := (Int.floor h1q).toNat with hi1def
    set i2 : ℕ := (Int.floor h2q).toNat with hi2def
    have hi12 : i1 ≤ i2 := by omega
    have hi2top : i2 ≤ s.length - 1 := by omega
    have hi1top : i1 ≤ s.length - 1 := le_trans hi12 hi2top
    set j1 : ℕ := min (i1 + 1) (s.length - 1) with hj1def
    set j2 : ℕ := min (i2 + 1) (s.length - 1) with hj2def
    have hij1 : i1 ≤ j1 := le_min (Nat.le_succ i1) hi1top
    have hij2 : i2 ≤ j2 := le_min (Nat.le_succ i2) hi2top
    have hj1top : j1 < s.length := lt_of_le_of_lt (min_le_right _ _) (by omega)
    have hj2top : j2 < s.length := lt_of_le_of_lt (min_le_right _ _) (by omega)
    have hg1_0 : 0 ≤ h1q - ((Int.floor h1q : ℤ) : ℚ) := by
      have := Int.floor_le h1q; linarith
    have hg1_1 : h1q - ((Int.floor h1q : ℤ) : ℚ) ≤ 1 := by
      have := Int.lt_floor_add_one h1q; push_cast at this ⊢; linarith
    have hg2_0 : 0 ≤ h2q - ((Int.floor h2q : ℤ) : ℚ) := by
      have := Int.floor_le h2q; linarith
    have hab1 : s.getD i1 0 ≤ s.getD j1 0 :=
      sorted_getD_mono hsorted hij1 hj1top
    have hab2 : s.getD i2 0 ≤ s.getD j2 0 :=
      sorted_getD_mono hsorted hij2 hj2top
    rcases eq_or_lt_of_le hfl12 with heq | hlt
    · have hieq : i1 = i2 := by rw [hi1def, hi2def, heq]
      have hjeq : j1 = j2 := by rw [hj1def, hj2def, hieq]
      rw [← hieq, ← hjeq] at hab2 ⊢
      have hgg : h1q - ((Int.floor h1q : ℤ) : ℚ) ≤ h2q - ((Int.floor h2q : ℤ) : ℚ) := by
        rw [← heq]; linarith
      nlinarith [hab1, hgg, hg1_0]
    · have hii : i1 < i2 := by omega
      have hj1i2 : j1 ≤ i2 := le_trans (min_le_left _ _) hii
      have hmid : s.getD j1 0 ≤ s.getD i2 0 :=
        sorted_getD_mono hsorted hj1i2 (by omega)
      have hv1 : s.getD i1 0 + (h1q - ((Int.floor h1q : ℤ) : ℚ))
          * (s.getD j1 0 - s.getD i1 0) ≤ s.getD j1 0 := by
        nlinarith [hab1, hg1_1]
      have hv2 : s.getD i2 0 ≤ s.getD i2 0 + (h2q - ((Int.floor h2q : ℤ) : ℚ))
          * (s.getD j2 0 - s.getD i2 0) := by
        nlinarith [hab2, hg2_0]
      linarith

/-- Entry `(r, j)` of a labeled table of rows, with out-of-range defaults. -/
def riskEntry (xs : List (String × List ℚ)) (r j : ℕ) : ℚ :=
  ((xs.getD r ("", [])).2).getD j 0

/-- Mapping a row-function with `F [] = 0` through a labeled table commutes
with `riskEntry`. -/
theorem getD_map_zero (row : List (List ℚ)) (F : List ℚ → ℚ)
    (hF : F [] = 0) (j : ℕ) :
    (row.map F).getD j 0 = F (row.getD j []) := by
  induction row generalizing j with
  | nil => simp [hF]
  | cons a t ih =>
    cases j with
    | zero => simp
    | succ n => simpa using ih n

/-- riskEntry of a quantile-mapped bootstrap table is the quantile of the
corresponding bootstrap row. -/
theorem riskEntry_map (boots : List (String × List (List ℚ)))
    (F : List ℚ → ℚ) (hF : F [] = 0) (r j : ℕ) :
    riskEntry (boots.map (fun p => (p.1, p.2.map F))) r j
      = F ((boots.getD r ("", [])).2.getD j []) := by
  induction boots generalizing r with
  | nil =>
    cases r <;> simp [riskEntry, hF]
  | cons p t ih =>
    cases r with
    | zero =>
      simp only [List.map_cons, riskEntry, List.getD_cons_zero]
      exact getD_map_zero p.2 F hF j
    | succ n =>
      simp only [List.map_cons, riskEntry, List.getD_cons_succ]
      exact ih n

/-- Low/high quantile rows of `get_fs_perc_low_high` come from the same
bootstrap table, so every entry satisfies low <= high. -/
theorem fs_low_high_le (rng : ℕ → ℕ) (unseen_distr : List (String × List QV))
    (focus_event : List (String × ℚ)) (n_iterations : ℕ)
    (degr_gthan degr_step quantile_low quantile_high : ℚ)
    (lows highs : List (String × List ℚ))
    (hfs : get_fs_perc_low_high rng unseen_distr focus_event n_iterations
        degr_gthan degr_step quantile_low quantile_high = .ok (lows, highs))
    (h0 : 0 ≤ quantile_low) (h12 : quantile_low ≤ quantile_high)
    (h1 : quantile_high ≤ 1) (r j : ℕ) :
    riskEntry lows r j ≤ riskEntry highs r j := by
  unfold get_fs_perc_low_high at hfs
  cases hb : fs_bootstrap_regions rng unseen_distr focus_event n_iterations
      degr_gthan degr_step 0 with
  | error e => rw [hb] at hfs; exact Except.noConfusion hfs
  | ok boots =>
    rw [hb] at hfs
    injection hfs with hpair
    have hlo : lows = boots.map
        (fun p => (p.1, p.2.map (quantileLinear quantile_low))) :=
      (congrArg Prod.fst hpair).symm
    have hhi : highs = boots.map
        (fun p => (p.1, p.2.map (quantileLinear quantile_high))) :=
      (congrArg Prod.snd hpair).symm
    subst hlo hhi
    rw [riskEntry_map boots (quantileLinear quantile_low) rfl r j,
        riskEntry_map boots (quantileLinear quantile_high) rfl r j]
    exact quantileLinear_mono _ h0 h12 h1

/-- Low/high quantile rows of `calc_bootstrap_quantiles` come from the same
bootstrap table, so every entry satisfies low <= high. -/
theorem ft_quantiles_le (rng : ℕ → ℕ) (model_da : ModelDA) (td : TrendData)
    (w : ℕ) (focus_event : List (String × ℚ)) (pivot_years : List ℚ)
    (sys : TrendSystem) (ex : Bool) (exY : Option (List ℚ))
    (n_iterations : ℕ) (quantile_low quantile_high : ℚ)
    (lows highs : List (String × List ℚ))
    (hq : calc_bootstrap_quantiles rng model_da td w focus_event pivot_years
        sys ex exY n_iterations quantile_low quantile_high = .ok (lows, highs))
    (h0 : 0 ≤ quantile_low) (h12 : quantile_low ≤ quantile_high)
    (h1 : quantile_high ≤ 1) (r j : ℕ) :
    riskEntry lows r j ≤ riskEntry highs r j := by
  unfold calc_bootstrap_quantiles at hq
  cases hb : ft_bootstrap_regions rng model_da td w focus_event pivot_years
      sys ex exY n_iterations 0 (List.range model_da.regions.length) with
  | error e => rw [hb] at hq; exact Except.noConfusion hq
  | ok boots =>
    rw [hb] at hq
    injection hq with hpair
    have hlo : lows = boots.map
        (fun p => (p.1, p.2.map (quantileLinear quantile_low))) :=
      (congrArg Prod.fst hpair).symm
    have hhi : highs = boots.map
        (fun p => (p.1, p.2.map (quantileLinear quantile_high))) :=
      (congrArg Prod.snd hpair).symm
    subst hlo hhi
    rw [riskEntry_map boots (quantileLinear quantile_low) rfl r j,
        riskEntry_map boots (quantileLinear quantile_high) rfl r j]
    exact quantileLinear_mono _ h0 h12 h1

/-- C8: for all valid inputs and every grid point, the bootstrap confidence
bounds of `get_fs_perc_low_high` (per region and increment) and of
`get_ft_perc_low_high` (per region and pivot year, both the core and the
extrapolated band) satisfy low <= high. -/
theorem C8_ci_bounds (rng rng2 : ℕ → ℕ)
    (unseen_distr : List (String × List QV))
    (focus_event focus_event2 : List (String × ℚ))
    (n_iterations n_iterations2 : ℕ) (degr_gthan degr_step : ℚ)
    (quantile_low quantile_high quantile_low2 quantile_high2 : ℚ)
    (model_da : ModelDA) (td : TrendData) (w : ℕ) (core_pivot_yrs : List ℚ)
    (trend_source : TrendSystem) (extrapolated : Bool)
    (extrapolate_yrs : Option (List ℚ))
    (lowsF highsF lowsT highsT : List (String × List ℚ))
    (rest : Option (List (String × List ℚ) × List (String × List ℚ)))
    (hfs : get_fs_perc_low_high rng unseen_distr focus_event n_iterations
        degr_gthan degr_step quantile_low quantile_high = .ok (lowsF, highsF))
    (hft : get_ft_perc_low_high rng2 model_da td w focus_event2 n_iterations2
        core_pivot_yrs trend_source extrapolated extrapolate_yrs
        quantile_low2 quantile_high2 = .ok ((lowsT, highsT), rest))
    (h0 : 0 ≤ quantile_low) (h12 : quantile_low ≤ quantile_high)
    (h1 : quantile_high ≤ 1)
    (h0' : 0 ≤ quantile_low2) (h12' : quantile_low2 ≤ quantile_high2)
    (h1' : quantile_high2 ≤ 1)
    (r j r2 j2 : ℕ) :
    riskEntry lowsF r j ≤ riskEntry highsF r j
    ∧ riskEntry lowsT r2 j2 ≤ riskEntry highsT r2 j2
    ∧ (∀ lowsE highsE, rest = some (lowsE, highsE) →
        ∀ r3 j3, riskEntry lowsE r3 j3 ≤ riskEntry highsE r3 j3) := by
  refine ⟨fs_low_high_le rng unseen_distr focus_event n_iterations degr_gthan
    degr_step quantile_low quantile_high lowsF highsF hfs h0 h12 h1 r j, ?_, ?_⟩
  · unfold get_ft_perc_low_high at hft
    cases hc : calc_bootstrap_quantiles rng2 model_da td w focus_event2
        core_pivot_yrs trend_source false none n_iterations2
        quantile_low2 quantile_high2 with
    | error e => rw [hc] at hft; exact Except.noConfusion hft
    | ok core =>
      rw [hc] at hft
      have hcore : core = (lowsT, highsT) := by
        cases hex : extrapolated with
        | true =>
          rw [hex] at hft
          simp only [if_true] at hft
          cases extrapolate_yrs with
          | none => exact Except.noConfusion hft
          | some ys =>
            dsimp only at hft
            cases he : calc_bootstrap_quantiles rng2 model_da td w focus_event2
                ys .model true (some ys) n_iterations2
                quantile_low2 quantile_high2 with
            | error e => rw [he] at hft; exact Except.noConfusion hft
            | ok extra =>
              rw [he] at hft
              injection hft with hpair
              exact congrArg Prod.fst hpair
        | false =>
          rw [hex] at hft
          simp only [Bool.false_eq_true, if_false] at hft
          injection hft with hpair
          exact congrArg Prod.fst hpair
      rw [hcore] at hc
      exact ft_quantiles_le rng2 model_da td w focus_event2 core_pivot_yrs
        trend_source false none n_iterations2 quantile_low2 quantile_high2
        lowsT highsT hc h0' h12' h1' r2 j2
  · intro lowsE highsE hrest r3 j3
    unfold get_ft_perc_low_high at hft
    cases hc : calc_bootstrap_quantiles rng2 model_da td w focus_event2
        core_pivot_yrs trend_source false none n_iterations2
        quantile_low2 quantile_high2 with
    | error e => rw [hc] at hft; exact Except.noConfusion hft
    | ok core =>
      rw [hc] at hft
      cases hex : extrapolated with
      | true =>
        rw [hex] at hft
        simp only [if_true] at hft
        cases extrapolate_yrs with
        | none => exact Except.noConfusion hft
        | some ys =>
          dsimp only at hft
          cases he : calc_bootstrap_quantiles rng2 model_da td w focus_event2
              ys .model true (some ys) n_iterations2
              quantile_low2 quantile_high2 with
          | error e => rw [he] at hft; exact Except.noConfusion hft
          | ok extra =>
            rw [he] at hft
            injection hft with hpair
            have hrest2 : some extra = rest := congrArg Prod.snd hpair
            rw [← hrest2] at hrest
            injection hrest with hrest3
            have hx : extra = (lowsE, highsE) := hrest3
            rw [hx] at he
            exact ft_quantiles_le rng2 model_da td w focus_event2 ys .model
              true (some ys) n_iterations2 quantile_low2 quantile_high2
              lowsE highsE he h0' h12' h1' r3 j3
      | false =>
        rw [hex] at hft
        simp only [Bool.false_eq_true, if_false] at hft
        injection hft with hpair
        have hrest2 : (none : Option _) = rest := congrArg Prod.snd hpair
        rw [← hrest2] at hrest
        exact Option.noConfusion hrest

set_option maxRecDepth 400000 in
/-- Witness for C8 at a concrete input: one region, a one-element sample,
one bootstrap iteration, one increment / one pivot year, with the default
quantile levels 0.025 and 0.975. -/
theorem C8_ci_bounds_witness :
    (get_fs_perc_low_high (fun _ => 0) [("A", [some 0])] [("A", (0 : ℚ))] 1
        0 1 (1/40) (39/40) = .ok ([("A", [0])], [("A", [0])]))
    ∧ (get_ft_perc_low_high (fun _ => 0) ⟨["A"], [2000], [[[[1]]]]⟩
        ⟨[2000], [[[1]]]⟩ 1 [("A", (0 : ℚ))] 1 [2000] .obs false none
        (1/40) (39/40) = .ok (([("A", [0])], [("A", [0])]), none))
    ∧ (riskEntry [("A", [0])] 0 0 ≤ riskEntry [("A", [0])] 0 0) := by
  refine ⟨by with_unfolding_all rfl, by with_unfolding_all rfl, ?_⟩
  exact (C8_ci_bounds (fun _ => 0) (fun _ => 0) [("A", [some 0])]
    [("A", (0 : ℚ))] [("A", (0 : ℚ))] 1 1 0 1 (1/40) (39/40) (1/40) (39/40)
    ⟨["A"], [2000], [[[[1]]]]⟩ ⟨[2000], [[[1]]]⟩ 1 [2000] .obs false none
    [("A", [0])] [("A", [0])] [("A", [0])] [("A", [0])] none
    (by with_unfolding_all rfl) (by with_unfolding_all rfl)
    (by norm_num) (by norm_num) (by norm_num)
    (by norm_num) (by norm_num) (by norm_num) 0 0 0 0).1

/-- C7: with `extrapolated=True` and no extrapolation-year array supplied,
`_get_pivot_arr`, `get_unseen_distr`, `get_functime_risk` and
`get_ft_perc_low_high` all raise the input-validation ValueError (the two
pipeline functions raise it after their core, non-extrapolated pass, whose
success is assumed here). -/
theorem C7_extrapolation_guard
    (seasonal_dat : List (ℚ × ℚ)) (year : ℚ) (hindcast_years : List ℚ)
    (system : TrendSystem) (model_da : ModelDA) (w : ℕ) (td : TrendData)
    (last_detrend : Bool) (pivot_year : ℚ)
    (focus_event : List (String × ℚ)) (core_pivot_yrs : List ℚ)
    (trend_source : TrendSystem) (risks : List (String × List (ℚ × ℚ)))
    (rng : ℕ → ℕ) (n_iterations : ℕ) (ql qh : ℚ)
    (qcore : List (String × List ℚ) × List (String × List ℚ))
    (hrisks : calc_risks model_da td w focus_event core_pivot_yrs trend_source
        false none (List.range model_da.regions.length) = .ok risks)
    (hquant : calc_bootstrap_quantiles rng model_da td w focus_event
        core_pivot_yrs trend_source false none n_iterations ql qh = .ok qcore) :
    get_pivot_arr seasonal_dat year hindcast_years system true none
      = .error "ValueError: extrapolate_yrs array must be provided if extrapolated=True"
    ∧ get_unseen_distr model_da w td last_detrend pivot_year trend_source true none
      = .error "ValueError: extr_year array must be provided if extrapolated=True"
    ∧ get_functime_risk model_da td w focus_event core_pivot_yrs trend_source
        true none
      = .error "ValueError: extrapolate_yrs array must be provided if extrapolated=True"
    ∧ get_ft_perc_low_high rng model_da td w focus_event n_iterations
        core_pivot_yrs trend_source true none ql qh
      = .error "ValueError: extrapolate_yrs array must be provided if extrapolated=True" := by
  refine ⟨?_, ?_, ?_, ?_⟩
  · unfold get_pivot_arr
    rw [if_pos ⟨rfl, rfl⟩]
  · unfold get_unseen_distr
    rw [if_pos ⟨rfl, rfl⟩]
  · unfold get_functime_risk
    rw [hrisks]
    rfl
  · unfold get_ft_perc_low_high
    rw [hquant]
    rfl

set_option maxRecDepth 400000 in
/-- Witness for C7 at a concrete input: a one-region, one-year ensemble
whose core pass succeeds, with `extrapolated=True` and no year array. -/
theorem C7_extrapolation_guard_witness :
    (calc_risks ⟨["A"], [2000], [[[[1]]]]⟩ ⟨[2000], [[[1]]]⟩ 1
        [("A", (0 : ℚ))] [2000] .obs false none
        (List.range (["A"] : List String).length) = .ok [("A", [(2000, 0)])])
    ∧ (get_functime_risk ⟨["A"], [2000], [[[[1]]]]⟩ ⟨[2000], [[[1]]]⟩ 1
        [("A", (0 : ℚ))] [2000] .obs true none
      = .error "ValueError: extrapolate_yrs array must be provided if extrapolated=True")
    ∧ (get_ft_perc_low_high (fun _ => 0) ⟨["A"], [2000], [[[[1]]]]⟩
        ⟨[2000], [[[1]]]⟩ 1 [("A", (0 : ℚ))] 1 [2000] .obs true none
        (1/40) (39/40)
      = .error "ValueError: extrapolate_yrs array must be provided if extrapolated=True") := by
  have h := C7_extrapolation_guard [] 0 [] .obs ⟨["A"], [2000], [[[[1]]]]⟩ 1
    ⟨[2000], [[[1]]]⟩ true 2024 [("A", (0 : ℚ))] [2000] .obs
    [("A", [(2000, 0)])] (fun _ => 0) 1 (1/40) (39/40)
    ([("A", [0])], [("A", [0])])
    (by with_unfolding_all rfl) (by with_unfolding_all rfl)
  exact ⟨by with_unfolding_all rfl, h.2.2.1, h.2.2.2⟩

/-- Embedding of the figure3.py driver around the risk estimators: the
module-level region check (src/figure3.py:49-51,
`np.array_equal(large_da["region"], obs_match["region"])`) runs before the
calls to `get_unseen_distr`, `get_funcstrength_risk` and `get_functime_risk`
(src/figure3.py:94-140), so mismatched regions abort before any detrending,
extremum extraction, or probability computation. -/
def figure3_risk_pipeline (model_da : ModelDA) (obs_regions : List String)
    (extr_avg_period : ℕ) (trend_data : TrendData) (pivot_year : ℚ)
    (trend_source : TrendSystem) (focus_event : List (String × ℚ))
    (degr_gthan degr_step : ℚ) (core_pivot_yrs : List ℚ) :
    Except String (List (String × List ℚ) × List (String × List (ℚ × ℚ))) :=
  if model_da.regions ≠ obs_regions then
    .error "ValueError: Regions in model and obs must match."
  else
    match get_unseen_distr model_da extr_avg_period trend_data true pivot_year
        trend_source false none with
    | .error e => .error e
    | .ok distr_pair =>
      match get_funcstrength_risk distr_pair.1 focus_event degr_gthan
          degr_step with
      | .error e => .error e
      | .ok fs_risk =>
        match get_functime_risk model_da trend_data extr_avg_period
            focus_event core_pivot_yrs trend_source false none with
        | .error e => .error e
        | .ok ft_pair => .ok (fs_risk, ft_pair.1)

/-- C4: whenever the model and observational region coordinates differ in
set or order (i.e. are not equal as ordered lists, which is what
`np.array_equal` tests), the figure3 risk estimation fails with the
validation ValueError before any detrending, extremum extraction, or
probability computation runs. -/
theorem C4_region_mismatch (model_da : ModelDA) (obs_regions : List String)
    (extr_avg_period : ℕ) (trend_data : TrendData) (pivot_year : ℚ)
    (trend_source : TrendSystem) (focus_event : List (String × ℚ))
    (degr_gthan degr_step : ℚ) (core_pivot_yrs : List ℚ)
    (hne : model_da.regions ≠ obs_regions) :
    figure3_risk_pipeline model_da obs_regions extr_avg_period trend_data
      pivot_year trend_source focus_event degr_gthan degr_step core_pivot_yrs
    = .error "ValueError: Regions in model and obs must match." := by
  unfold figure3_risk_pipeline
  rw [if_pos hne]

/-- Witness for C4 at a concrete input: model region list ["A"] against
observational region list ["B"]. -/
theorem C4_region_mismatch_witness :
    ((⟨["A"], [2000], [[[[1]]]]⟩ : ModelDA).regions ≠ ["B"])
    ∧ (figure3_risk_pipeline ⟨["A"], [2000], [[[[1]]]]⟩ ["B"] 1
        ⟨[2000], [[[1]]]⟩ 2024 .obs [("A", (0 : ℚ))] 1 1 [2000]
      = .error "ValueError: Regions in model and obs must match.") := by
  refine ⟨by simp, ?_⟩
  exact C4_region_mismatch ⟨["A"], [2000], [[[[1]]]]⟩ ["B"] 1
    ⟨[2000], [[[1]]]⟩ 2024 .obs [("A", (0 : ℚ))] 1 1 [2000] (by simp)

/-- Embedding of the Gregorian leap-year test used both by `calendar.
monthrange` and by the padding condition of `extract_target_days`
(src/methods/utils.py:105): `y % 4 == 0 and (y % 100 != 0 or y % 400 == 0)`. -/
def isLeap (y : ℕ) : Bool := y % 4 == 0 && (y % 100 != 0 || y % 400 == 0)

/-- `calendar.monthrange(y, m)[1]`: the day count of month `m` (1-12) of
year `y`. -/
def monthLen (y m : ℕ) : ℕ :=
  if m = 2 then (if isLeap y then 29 else 28)
  else if m = 4 ∨ m = 6 ∨ m = 9 ∨ m = 11 then 30
  else 31

/-- Calendar date with 1-based month and day. -/
structure Date where
  y : ℕ
  m : ℕ
  d : ℕ
deriving DecidableEq, Repr

/-- Packed ordering key: for valid dates (month 1-12, day 1-31) the order of
keys is exactly chronological order, which is how `np.datetime64` values
compare. -/
def Date.key (dt : Date) : ℕ := dt.y * 416 + dt.m * 32 + dt.d

/-- Chronological comparison of dates (`<=` of `np.datetime64`). -/
def Date.leB (a b : Date) : Bool := decide (a.key ≤ b.key)

/-- The day after `dt` in the Gregorian calendar. -/
def nextDay (dt : Date) : Date :=
  if dt.d < monthLen dt.y dt.m then ⟨dt.y, dt.m, dt.d + 1⟩
  else if dt.m < 12 then ⟨dt.y, dt.m + 1, 1⟩
  else ⟨dt.y + 1, 1, 1⟩

/-- `dt + np.timedelta64(n, "D")`. -/
def addDays (dt : Date) : ℕ → Date
  | 0 => dt
  | n + 1 => addDays (nextDay dt) n

/-- A contiguous daily time coordinate of `n` days starting at `start`. -/
def dateRange (start : Date) : ℕ → List Date
  | 0 => []
  | n + 1 => start :: dateRange (nextDay start) n

/-- A numpy-style n-dimensional array: explicit shape plus row-major flat
data.  The intended invariant `flat.length = shape.prod` holds for every
array the embedding builds from consistent inputs. -/
structure NDF where
  shape : List ℕ
  flat : List QV
deriving DecidableEq

/-- Number of indices below `n` kept by a selection predicate. -/
def countKept (n : ℕ) (keep : ℕ → Bool) : ℕ := (List.range n).countP keep

/-- Selection of positions along axis `k` (numpy fancy indexing with a
boolean mask over that axis, used for `.sel(time=slice(...))` and
`.isel(time=[0])`).  The shape keeps its length, as in numpy. -/
def NDF.filterAxis (k : ℕ) (keep : ℕ → Bool) (d : NDF) : NDF :=
  let inner := (d.shape.drop (k + 1)).prod
  let axisLen := d.shape.getD k 0
  ⟨d.shape.set k (countKept axisLen keep),
   (d.flat.enum.filter (fun p => keep (p.1 / inner % axisLen))).map Prod.snd⟩

/-- `np.array` over a Python list of equal-shaped arrays; modern numpy
raises ValueError for ragged input. -/
def stackList (l : List NDF) : Except String NDF :=
  match l with
  | [] => .ok ⟨[0], []⟩
  | d :: rest =>
    if rest.all (fun x => x.shape == d.shape) then
      .ok ⟨l.length :: d.shape, (l.map NDF.flat).flatten⟩
    else
      .error "ValueError: could not broadcast ragged input array"

/-- `np.concatenate((a, b), axis=1)`: requires at least two axes and equal
non-concatenated extents (ValueError otherwise, as in numpy, whose axis
errors are ValueError subclasses). -/
def NDF.concatAxis1 (a b : NDF) : Except String NDF :=
  match a.shape, b.shape with
  | s0 :: s1 :: rest, t0 :: t1 :: trest =>
    if s0 = t0 ∧ rest = trest then
      let inner := rest.prod
      .ok ⟨s0 :: (s1 + t1) :: rest,
        (List.range s0).flatMap (fun o =>
          ((a.flat.drop (o * (s1 * inner))).take (s1 * inner))
          ++ ((b.flat.drop (o * (t1 * inner))).take (t1 * inner)))⟩
    else .error "ValueError: concatenate input array dimensions must match"
  | _, _ => .error "ValueError: concatenate axis 1 is out of bounds"

/-- `np.full(shape, np.nan)`. -/
def fullNDF (shape : List ℕ) (v : QV) : NDF := ⟨shape, List.replicate shape.prod v⟩

/-- `.transpose` swapping the first two axes (the
`("region", "year", "time")` transpose from `("year", "region", "time")`). -/
def NDF.swap01 (d : NDF) : NDF :=
  match d.shape with
  | a :: b :: rest =>
    let inner := rest.prod
    ⟨b :: a :: rest,
     (List.range b).flatMap (fun j =>
       (List.range a).flatMap (fun i =>
         (d.flat.drop ((i * b + j) * inner)).take inner))⟩
  | _ => d

/-- A daily labeled array as consumed by `extract_target_days`: named axes,
the time coordinate, the lengths of the other named coordinates, and the
values. -/
structure XVar where
  dims : List String
  time : List Date
  coords : List (String × ℕ)
  data : NDF

/-- `var.sel(time=slice(t0, t1))` for a monotonic time coordinate: both ends
label-inclusive; returns the selected time labels and the selected data. -/
def sel_time_slice (var : XVar) (t0 t1 : Date) : List Date × NDF :=
  (var.time.filter (fun t => Date.leB t0 t && Date.leB t t1),
   var.data.filterAxis (var.dims.indexOf "time")
     (fun i => Date.leB t0 (var.time.getD i ⟨0, 0, 0⟩)
        && Date.leB (var.time.getD i ⟨0, 0, 0⟩) t1))

/-- `np.unique(var["time"].dt.year)` for a chronologically ordered time
coordinate: order-preserving deduplication of the year labels. -/
def unique_var_years (var : XVar) : List ℕ := (var.time.map Date.y).dedup

/-- `f"{yr}-{month_digits[i]}-01"` month lookup: `month_digits` is the
twelve month strings duplicated, so index `i` denotes month `i % 12 + 1`. -/
def monthOf (idx : ℕ) : ℕ := idx % 12 + 1

/-- The season year of each month position for start year `yr`
(src/methods/utils.py:59-67): months at positions whose index does not
exceed the first listed month roll into `yr + 1`. -/
def syears1 (season_indices : List ℕ) (yr : ℕ) : List ℕ :=
  (List.range season_indices.length).map (fun m =>
    if m = 0 ∨ (m ≠ 0 ∧ season_indices.getD m 0 > season_indices.getD 0 0)
    then yr else yr + 1)

/-- The day count of the season starting in year `yr`
(src/methods/utils.py:70-78): the sum of `monthrange` month lengths over
the season months, each evaluated in its season year. -/
def ndays1 (season_indices : List ℕ) (yr : ℕ) : ℕ :=
  (((syears1 season_indices yr).zip (season_indices.map (· + 1))).map
    (fun p => monthLen p.1 p.2)).sum

/-- The per-year season slices (src/methods/utils.py:81-91): `ts` pairs each
day count with a start year drawn from `np.unique(var["time"].dt.year)` —
`zip` truncation included — and `target_data` slices the closed interval
`[start, start + ndays - 1]`. -/
def season_slices (var : XVar) (years : List ℕ) (season_indices : List ℕ) :
    List (List Date × NDF) :=
  ((years.map (ndays1 season_indices)).zip (unique_var_years var)).map
    (fun p =>
      let t0 : Date := ⟨p.2, monthOf (season_indices.getD 0 0), 1⟩
      sel_time_slice var t0 (addDays t0 (p.1 - 1)))

/-- The February-padding comprehension body (src/methods/utils.py:102-109):
a year's slice is padded along axis 1 with the NaN fill when `year + 1` is
not a leap year.  A concatenate failure (ValueError in numpy) aborts. -/
def feb_pad_list (fill : NDF) :
    List ((List Date × NDF) × ℕ) → Except String (List NDF)
  | [] => .ok []
  | p :: rest =>
    if isLeap (p.2 + 1) then
      match feb_pad_list fill rest with
      | .error e => .error e
      | .ok l => .ok (p.1.2 :: l)
    else
      match p.1.2.concatAxis1 fill with
      | .error e => .error e
      | .ok padded =>
        match feb_pad_list fill rest with
        | .error e => .error e
        | .ok l => .ok (padded :: l)

/-- The February branch of `extract_target_days`
(src/methods/utils.py:97-109): builds the NaN fill from
`target_data[0].isel(time=[0])` (IndexError when there is no slice at all)
and pads each non-leap season. -/
def feb_fill_list (var : XVar) (years : List ℕ) (season_indices : List ℕ) :
    Except String (List NDF) :=
  match (season_slices var years season_indices).head? with
  | none => .error "IndexError: list index out of range"
  | some td0 =>
    let timeAxis := var.dims.indexOf "time"
    let fill := fullNDF (td0.2.filterAxis timeAxis (fun i => i == 0)).shape none
    feb_pad_list fill ((season_slices var years season_indices).zip years)

/-- The final `xr.DataArray` construction of `extract_target_days`
(src/methods/utils.py:127-138): numpy stacking (ValueError on ragged data),
then the xarray check that the data shape matches the declared coordinate
sizes (ValueError otherwise), then for region data the transpose to
`("region", "year", "time")`. -/
def build_dataarray (var : XVar) (years : List ℕ) (ttime : List Date)
    (data_type : String) (target_data_fill : List NDF) : Except String NDF :=
  match stackList target_data_fill with
  | .error e => .error e
  | .ok stacked =>
    if data_type == "map" then
      if stacked.shape = [years.length, ttime.length,
          (var.coords.lookup "latitude").getD 0,
          (var.coords.lookup "longitude").getD 0] then
        .ok stacked
      else .error "ValueError: conflicting sizes for DataArray dimensions"
    else
      if stacked.shape = [years.length, (var.coords.lookup "region").getD 0,
          ttime.length] then
        .ok stacked.swap01
      else .error "ValueError: conflicting sizes for DataArray dimensions"

/-- Embedding of Python `list(years).index(y)`: the position of the first
occurrence, ValueError (modelled by `none`) when absent. -/
def list_index (a : ℕ) : List ℕ → Option ℕ
  | [] => none
  | x :: rest => if x = a then some 0 else (list_index a rest).map (· + 1)

/-- Embedding of `extract_target_days` (src/methods/utils.py:37-140).  When
February is among the season indices, the padded-axis time coordinate is
taken from the slice of the hardcoded year `2012 - 1`
(`list(years).index(...)` raises ValueError when absent); the non-February
branch likewise uses `2010 - 1`. -/
def extract_target_days (var : XVar) (years : List ℕ)
    (season_indices : List ℕ) (data_type : String) : Except String NDF :=
  let target_data := season_slices var years season_indices
  if season_indices.contains 1 then
    match feb_fill_list var years season_indices with
    | .error e => .error e
    | .ok target_data_fill =>
      match list_index (2012 - 1) years with
      | none => .error "ValueError: 2011 is not in list"
      | some idx =>
        match target_data.get? idx with
        | none => .error "IndexError: list index out of range"
        | some td =>
          build_dataarray var years td.1 data_type target_data_fill
  else
    match list_index (2010 - 1) years with
    | none => .error "ValueError: 2009 is not in list"
    | some idx =>
      match target_data.get? idx with
      | none => .error "IndexError: list index out of range"
      | some td =>
        build_dataarray var years td.1 data_type (target_data.map Prod.snd)

/-- Python `list.index` finds nothing exactly when the element is absent. -/
theorem list_index_eq_none {a : ℕ} {l : List ℕ} (h : a ∉ l) :
    list_index a l = none := by
  induction l with
  | nil => rfl
  | cons x rest ih =>
    simp only [List.mem_cons, not_or] at h
    have hx : ¬ x = a := fun hxa => h.1 hxa.symm
    simp [list_index, hx, ih h.2]

/-- Python `list.index` of a present element returns a position inside the
list. -/
theorem list_index_mem {a : ℕ} {l : List ℕ} (h : a ∈ l) :
    ∃ idx, list_index a l = some idx ∧ idx < l.length := by
  induction l with
  | nil => simp at h
  | cons x rest ih =>
    by_cases hx : x = a
    · exact ⟨0, by simp [list_index, hx], by simp⟩
    · have hmem : a ∈ rest := by
        rcases List.mem_cons.mp h with h1 | h1
        · exact absurd h1.symm hx
        · exact h1
      obtain ⟨idx, hidx, hlt⟩ := ih hmem
      exact ⟨idx + 1, by simp [list_index, hx, hidx], by simp; omega⟩

/-- `get?` of a zip from `get?` of both components. -/
theorem zip_get?_some {α β : Type} {l : List α} {m : List β} {i : ℕ}
    {a : α} {b : β} (ha : l.get? i = some a) (hb : m.get? i = some b) :
    (l.zip m).get? i = some (a, b) := by
  induction l generalizing m i with
  | nil => simp at ha
  | cons x xs ih =>
    cases m with
    | nil => simp at hb
    | cons y ys =>
      cases i with
      | zero =>
        simp only [List.get?_cons_zero, Option.some.injEq] at ha hb
        simp [List.zip_cons_cons, ha, hb]
      | succ n =>
        simp only [List.get?_cons_succ] at ha hb ⊢
        rw [List.zip_cons_cons]
        simpa using ih ha hb

/-- When the first `years.length` unique data years agree with `years`, the
unique list is at least as long. -/
theorem uniq_years_long {var : XVar} {years : List ℕ}
    (hyrs : ∀ i, i < years.length →
      (unique_var_years var).get? i = years.get? i) :
    years.length ≤ (unique_var_years var).length := by
  by_contra hlt
  push_neg at hlt
  have h1 := hyrs (unique_var_years var).length hlt
  rw [List.get?_eq_none.mpr (le_refl _)] at h1
  have h2 : years.get? (unique_var_years var).length ≠ none := by
    rw [ne_eq, List.get?_eq_none]
    omega
  exact h2 h1.symm

/-- The number of season slices equals the number of requested years when
the unique data years are at least as numerous. -/
theorem season_slices_length {var : XVar} {years : List ℕ}
    {season_indices : List ℕ}
    (h : years.length ≤ (unique_var_years var).length) :
    (season_slices var years season_indices).length = years.length := by
  unfold season_slices
  rw [List.length_map, List.length_zip, List.length_map]
  omega

/-- Every season slice's data is a time-axis selection of the input data, so
its shape is the input shape with the time axis replaced. -/
theorem season_slices_shape {var : XVar} {years : List ℕ}
    {season_indices : List ℕ} {p : List Date × NDF}
    (hp : p ∈ season_slices var years season_indices) :
    ∃ c, p.2.shape
      = var.data.shape.set (var.dims.indexOf "time") c := by
  unfold season_slices at hp
  obtain ⟨q, -, hq⟩ := List.mem_map.mp hp
  subst hq
  exact ⟨_, rfl⟩

/-- The entries of a season-slice list indexed positionally. -/
theorem season_slices_get? {var : XVar} {years : List ℕ}
    {season_indices : List ℕ} {i : ℕ} {yr : ℕ}
    (hyr : years.get? i = some yr)
    (huniq : (unique_var_years var).get? i = some yr) :
    (season_slices var years season_indices).get? i
      = some (sel_time_slice var ⟨yr, monthOf (season_indices.getD 0 0), 1⟩
          (addDays ⟨yr, monthOf (season_indices.getD 0 0), 1⟩
            (ndays1 season_indices yr - 1))) := by
  unfold season_slices
  rw [List.get?_map]
  have hnd : (years.map (ndays1 season_indices)).get? i
      = some (ndays1 season_indices yr) := by
    rw [List.get?_map, hyr]
    rfl
  rw [zip_get?_some hnd huniq]
  rfl

/-- Any error of the padding loop is a numpy concatenate ValueError. -/
theorem feb_pad_list_error {fill : NDF} {l : List ((List Date × NDF) × ℕ)}
    {e : String} (h : feb_pad_list fill l = .error e) :
    e = "ValueError: concatenate input array dimensions must match"
    ∨ e = "ValueError: concatenate axis 1 is out of bounds" := by
  induction l with
  | nil => exact Except.noConfusion h
  | cons p rest ih =>
    unfold feb_pad_list at h
    split at h
    · cases hrec : feb_pad_list fill rest with
      | error e2 =>
        rw [hrec] at h
        injection h with h2
        exact ih (h2 ▸ hrec)
      | ok l2 => rw [hrec] at h; exact Except.noConfusion h
    · cases hcat : p.1.2.concatAxis1 fill with
      | error e2 =>
        rw [hcat] at h
        injection h with h2
        subst h2
        unfold NDF.concatAxis1 at hcat
        split at hcat
        · split at hcat
          · exact Except.noConfusion hcat
          · injection hcat with h3; exact Or.inl h3.symm
        · injection hcat with h3; exact Or.inr h3.symm
      | ok padded =>
        rw [hcat] at h
        cases hrec : feb_pad_list fill rest with
        | error e2 =>
          rw [hrec] at h
          injection h with h2
          exact ih (h2 ▸ hrec)
        | ok l2 => rw [hrec] at h; exact Except.noConfusion h

/-- A successful padding loop pairs output entries with input entries:
leap-season entries pass through, the others are concatenated with the
fill. -/
theorem feb_pad_list_get? {fill : NDF} {l : List ((List Date × NDF) × ℕ)}
    {out : List NDF} (h : feb_pad_list fill l = .ok out) (i : ℕ)
    {p : (List Date × NDF) × ℕ} (hp : l.get? i = some p) :
    ∃ q, out.get? i = some q ∧
      ((isLeap (p.2 + 1) = true ∧ q = p.1.2)
       ∨ (isLeap (p.2 + 1) = false ∧ p.1.2.concatAxis1 fill = .ok q)) := by
  induction l generalizing out i with
  | nil => simp at hp
  | cons hd rest ih =>
    unfold feb_pad_list at h
    split at h
    next hleap =>
      cases hrec : feb_pad_list fill rest with
      | error e2 => rw [hrec] at h; exact Except.noConfusion h
      | ok l2 =>
        rw [hrec] at h
        cases h
        cases i with
        | zero =>
          simp only [List.get?_cons_zero, Option.some.injEq] at hp
          subst hp
          exact ⟨hd.1.2, rfl, Or.inl ⟨hleap, rfl⟩⟩
        | succ n =>
          simp only [List.get?_cons_succ] at hp ⊢
          exact ih hrec n hp
    next hleap =>
      cases hcat : hd.1.2.concatAxis1 fill with
      | error e2 => rw [hcat] at h; exact Except.noConfusion h
      | ok padded =>
        rw [hcat] at h
        cases hrec : feb_pad_list fill rest with
        | error e2 => rw [hrec] at h; exact Except.noConfusion h
        | ok l2 =>
          rw [hrec] at h
          cases h
          cases i with
          | zero =>
            simp only [List.get?_cons_zero, Option.some.injEq] at hp
            subst hp
            exact ⟨padded, rfl, Or.inr ⟨by simpa using hleap, hcat⟩⟩
          | succ n =>
            simp only [List.get?_cons_succ] at hp ⊢
            exact ih hrec n hp

/-- A successful padding loop preserves the number of entries. -/
theorem feb_pad_list_length {fill : NDF} {l : List ((List Date × NDF) × ℕ)}
    {out : List NDF} (h : feb_pad_list fill l = .ok out) :
    out.length = l.length := by
  induction l generalizing out with
  | nil => unfold feb_pad_list at h; cases h; rfl
  | cons hd rest ih =>
    unfold feb_pad_list at h
    split at h
    · cases hrec : feb_pad_list fill rest with
      | error e2 => rw [hrec] at h; exact Except.noConfusion h
      | ok l2 =>
        rw [hrec] at h; cases h
        simp [ih hrec]
    · cases hcat : hd.1.2.concatAxis1 fill with
      | error e2 => rw [hcat] at h; exact Except.noConfusion h
      | ok padded =>
        rw [hcat] at h
        cases hrec : feb_pad_list fill rest with
        | error e2 => rw [hrec] at h; exact Except.noConfusion h
        | ok l2 =>
          rw [hrec] at h; cases h
          simp [ih hrec]

/-- A successful axis-1 concatenation keeps the number of axes of its first
argument. -/
theorem concatAxis1_shape_length {a b q : NDF}
    (h : a.concatAxis1 b = .ok q) :
    q.shape.length = a.shape.length := by
  unfold NDF.concatAxis1 at h
  split at h
  next s0 s1 rest t0 t1 trest ha hb =>
    split at h
    · cases h
      simp [ha]
    · exact Except.noConfusion h
  next => exact Except.noConfusion h

/-- numpy stacking of a non-empty list: ragged ValueError, or a success
whose leading axis is the list length followed by the first entry's shape. -/
theorem stackList_cons (d : NDF) (rest : List NDF) :
    (stackList (d :: rest)
      = .error "ValueError: could not broadcast ragged input array")
    ∨ ∃ s, stackList (d :: rest) = .ok s
        ∧ s.shape = (rest.length + 1) :: d.shape := by
  by_cases hc : rest.all (fun x => x.shape == d.shape) = true
  · right
    exact ⟨⟨(d :: rest).length :: d.shape, ((d :: rest).map NDF.flat).flatten⟩,
      by simp only [stackList, if_pos hc], by simp⟩
  · left
    simp only [stackList, if_neg hc]

/-- The DataArray construction step fails only with the numpy ragged error
or the xarray size-mismatch error. -/
theorem build_dataarray_error {var : XVar} {years : List ℕ}
    {ttime : List Date} {data_type : String} {tdf : List NDF} {e : String}
    (h : build_dataarray var years ttime data_type tdf = .error e) :
    e = "ValueError: could not broadcast ragged input array"
    ∨ e = "ValueError: conflicting sizes for DataArray dimensions" := by
  unfold build_dataarray at h
  cases hs : stackList tdf with
  | error e2 =>
    rw [hs] at h
    dsimp only at h
    injection h with h2
    subst h2
    cases tdf with
    | nil => unfold stackList at hs; exact Except.noConfusion hs
    | cons d rest =>
      rcases stackList_cons d rest with h1 | ⟨s, h1, -⟩
      · rw [h1] at hs; injection hs with h3; exact Or.inl h3.symm
      · rw [h1] at hs; exact Except.noConfusion hs
  | ok s =>
    rw [hs] at h
    dsimp only at h
    split at h
    · split at h
      · exact Except.noConfusion h
      · injection h with h2; exact Or.inr h2.symm
    · split at h
      · exact Except.noConfusion h
      · injection h with h2; exact Or.inr h2.symm

/-- Any error of the February branch preamble is the IndexError of
`target_data[0]` or a concatenate ValueError. -/
theorem feb_fill_list_error {var : XVar} {years : List ℕ}
    {season_indices : List ℕ} {e : String}
    (h : feb_fill_list var years season_indices = .error e) :
    e = "IndexError: list index out of range"
    ∨ e = "ValueError: concatenate input array dimensions must match"
    ∨ e = "ValueError: concatenate axis 1 is out of bounds" := by
  unfold feb_fill_list at h
  cases hh : (season_slices var years season_indices).head? with
  | none =>
    rw [hh] at h
    injection h with h2
    exact Or.inl h2.symm
  | some td0 =>
    rw [hh] at h
    exact Or.inr (feb_pad_list_error h)

/-- The padding loop succeeds whenever every slice is a two-axis array with
the same leading extent as the fill. -/
theorem feb_pad_list_ok {fill : NDF} {R cf : ℕ} (hfill : fill.shape = [R, cf])
    (l : List ((List Date × NDF) × ℕ))
    (hl : ∀ p ∈ l, ∃ c, p.1.2.shape = [R, c]) :
    ∃ out, feb_pad_list fill l = .ok out := by
  induction l with
  | nil => exact ⟨[], rfl⟩
  | cons hd rest ih =>
    obtain ⟨out2, hout2⟩ := ih (fun p hp => hl p (List.mem_cons_of_mem _ hp))
    obtain ⟨c, hc⟩ := hl hd (List.mem_cons_self _ _)
    by_cases hleap : isLeap (hd.2 + 1) = true
    · exact ⟨hd.1.2 :: out2, by simp only [feb_pad_list, if_pos hleap, hout2]⟩
    · have hcat : hd.1.2.concatAxis1 fill
          = .ok ⟨R :: (c + cf) :: [],
            (List.range R).flatMap (fun o =>
              ((hd.1.2.flat.drop (o * (c * 1))).take (c * 1))
              ++ ((fill.flat.drop (o * (cf * 1))).take (cf * 1)))⟩ := by
        unfold NDF.concatAxis1
        rw [hc, hfill]
        simp
      refine ⟨⟨[R, c + cf],
        (List.range R).flatMap (fun o =>
          ((hd.1.2.flat.drop (o * (c * 1))).take (c * 1))
          ++ ((fill.flat.drop (o * (cf * 1))).take (cf * 1)))⟩ :: out2, ?_⟩
      simp only [feb_pad_list, if_neg hleap, hcat, hout2]

/-- Under aligned unique years and a two-axis (region, time) input, the
February branch preamble succeeds and returns one entry per year. -/
theorem feb_fill_list_ok {var : XVar} {years : List ℕ}
    {season_indices : List ℕ} {R T : ℕ}
    (hne : years ≠ [])
    (hyrs : ∀ i, i < years.length →
      (unique_var_years var).get? i = years.get? i)
    (hdims : var.dims = ["region", "time"])
    (hshape : var.data.shape = [R, T]) :
    ∃ tdf, feb_fill_list var years season_indices = .ok tdf
      ∧ tdf.length = years.length := by
  have hlong := uniq_years_long hyrs
  have hslen : (season_slices var years season_indices).length = years.length :=
    season_slices_length hlong
  have hslice_shape : ∀ p ∈ season_slices var years season_indices,
      ∃ c, p.2.shape = [R, c] := by
    intro p hp
    obtain ⟨c, hc⟩ := season_slices_shape hp
    rw [hshape, hdims] at hc
    exact ⟨c, hc⟩
  have hpos : 0 < (season_slices var years season_indices).length := by
    rw [hslen]
    exact List.length_pos.mpr hne
  cases hh : (season_slices var years season_indices).head? with
  | none =>
    rw [List.head?_eq_none_iff] at hh
    rw [hh] at hpos
    simp at hpos
  | some td0 =>
    have htd0 : td0 ∈ season_slices var years season_indices :=
      List.mem_of_mem_head? hh
    obtain ⟨c0, hc0⟩ := hslice_shape td0 htd0
    have hfillshape : (fullNDF ((td0.2.filterAxis (var.dims.indexOf "time")
        (fun i => i == 0)).shape) none).shape
        = [R, countKept c0 (fun i => i == 0)] := by
      show (td0.2.filterAxis (var.dims.indexOf "time")
        (fun i => i == 0)).shape = _
      unfold NDF.filterAxis
      rw [hdims]
      show td0.2.shape.set 1 (countKept (td0.2.shape.getD 1 0)
        (fun i => i == 0)) = _
      rw [hc0]
      rfl
    obtain ⟨out, hout⟩ := feb_pad_list_ok hfillshape
      ((season_slices var years season_indices).zip years)
      (fun p hp => hslice_shape p.1 (List.mem_zip hp).1)
    refine ⟨out, ?_, ?_⟩
    · unfold feb_fill_list
      rw [hh]
      exact hout
    · rw [feb_pad_list_length hout, List.length_zip, hslen]
      omega

/-- C5 (amended): with February in the season window, `extract_target_days`
raises the padding-coordinate ValueError exactly when the hardcoded year
`2012 - 1 = 2011` is absent from `years` — the presence of any other leap
year does not prevent the failure, and when `2011` is present this
particular failure cannot occur. -/
theorem C5_feb_hardcoded_year (var : XVar) (years : List ℕ)
    (season_indices : List ℕ) (data_type : String) (R T : ℕ)
    (hfeb : season_indices.contains 1 = true)
    (hne : years ≠ [])
    (hyrs : ∀ i, i < years.length →
      (unique_var_years var).get? i = years.get? i)
    (hdims : var.dims = ["region", "time"])
    (hshape : var.data.shape = [R, T]) :
    (2011 ∉ years →
      extract_target_days var years season_indices data_type
        = .error "ValueError: 2011 is not in list")
    ∧ (2011 ∈ years →
      extract_target_days var years season_indices data_type
        ≠ .error "ValueError: 2011 is not in list") := by
  constructor
  · intro hmem
    obtain ⟨tdf, hfok, -⟩ :=
      @feb_fill_list_ok var years season_indices R T hne hyrs hdims hshape
    unfold extract_target_days
    rw [hfeb, if_pos rfl, hfok]
    rw [show (2012 - 1 : ℕ) = 2011 from rfl, list_index_eq_none hmem]
  · intro hmem hcontra
    unfold extract_target_days at hcontra
    rw [hfeb, if_pos rfl] at hcontra
    cases hfe : feb_fill_list var years season_indices with
    | error e =>
      rw [hfe] at hcontra
      dsimp only at hcontra
      injection hcontra with h2
      rcases feb_fill_list_error hfe with h3 | h3 | h3 <;>
        (rw [h3] at h2; exact absurd h2 (by decide))
    | ok tdf =>
      rw [hfe] at hcontra
      obtain ⟨idx, hidx, -⟩ := list_index_mem hmem
      rw [show (2012 - 1 : ℕ) = 2011 from rfl, hidx] at hcontra
      dsimp only at hcontra
      cases hg : (season_slices var years season_indices).get? idx with
      | none =>
        rw [hg] at hcontra
        dsimp only at hcontra
        injection hcontra with h2
        exact absurd h2 (by decide)
      | some td =>
        rw [hg] at hcontra
        dsimp only at hcontra
        cases hb : build_dataarray var years td.1 data_type tdf with
        | error e =>
          rw [hb] at hcontra
          injection hcontra with h2
          rcases build_dataarray_error hb with h3 | h3 <;>
            (rw [h3] at h2; exact absurd h2 (by decide))
        | ok s => rw [hb] at hcontra; exact Except.noConfusion hcontra

/-- The concrete input refuting C5 as stated: DJF window over [1995, 1996]. -/
def c5_var : XVar :=
  ⟨["region", "time"], [⟨1995, 12, 1⟩, ⟨1996, 12, 1⟩], [("region", 1)],
   ⟨[1, 2], [some 0, some 0]⟩⟩

/-- C5 counterexample: for years [1995, 1996] with the DJF window, a leap
year (1996) is present in the requested range — in both senses: 1996 itself
is a leap year, and season 1995 contains the leap February of 1996 — yet
`extract_target_days` still raises the ValueError, because the hardcoded
source year 2011 is absent. -/
theorem C5_counterexample :
    ([11, 0, 1].contains 1 = true)
    ∧ (isLeap 1996 = true)
    ∧ ((1996 : ℕ) ∈ [1995, 1996] ∧ 1995 + 1 = 1996)
    ∧ extract_target_days c5_var [1995, 1996] [11, 0, 1] "regmean"
        = .error "ValueError: 2011 is not in list" := by
  refine ⟨by decide, by decide, ⟨by decide, rfl⟩, ?_⟩
  with_unfolding_all rfl

/-- Witness for C5 (amended) at a concrete input: the same DJF window over
[1995, 1996], where 2011 is absent and the ValueError fires. -/
theorem C5_feb_hardcoded_year_witness :
    ((2011 : ℕ) ∉ [1995, 1996])
    ∧ extract_target_days c5_var [1995, 1996] [11, 0, 1] "regmean"
        = .error "ValueError: 2011 is not in list" := by
  refine ⟨by decide, ?_⟩
  exact (C5_feb_hardcoded_year c5_var [1995, 1996] [11, 0, 1] "regmean" 1 2
    (by decide) (by simp) (by decide) rfl rfl).1 (by decide)

/-- A found `list.index` position lies inside the list. -/
theorem list_index_some_lt {a : ℕ} {l : List ℕ} {idx : ℕ}
    (h : list_index a l = some idx) : idx < l.length := by
  induction l generalizing idx with
  | nil => exact Option.noConfusion h
  | cons x rest ih =>
    unfold list_index at h
    split at h
    · injection h with h2
      simp [← h2]
    · cases hr : list_index a rest with
      | none => rw [hr] at h; exact Option.noConfusion h
      | some j =>
        rw [hr] at h
        simp only [Option.map_some', Option.some.injEq] at h
        have := ih hr
        simp only [List.length_cons]
        omega

/-- C6: `extract_target_days` with `data_type="map"` on input carrying an
ensemble/realisation dimension (four named axes instead of the three the
map output declares) always fails with a ValueError: either one of the
hardcoded-year lookups fails, or numpy/xarray reject the
five-dimensional stacked data against the four declared coordinates. -/
theorem C6_map_with_realisation (var : XVar) (years : List ℕ)
    (season_indices : List ℕ)
    (hdims : var.dims = ["realisation", "time", "latitude", "longitude"])
    (hndim : var.data.shape.length = 4)
    (hne : years ≠ [])
    (hyrs : ∀ i, i < years.length →
      (unique_var_years var).get? i = years.get? i) :
    ∃ e, extract_target_days var years season_indices "map" = .error e
      ∧ (e = "ValueError: 2011 is not in list"
        ∨ e = "ValueError: 2009 is not in list"
        ∨ e = "ValueError: could not broadcast ragged input array"
        ∨ e = "ValueError: conflicting sizes for DataArray dimensions"
        ∨ e = "ValueError: concatenate input array dimensions must match"
        ∨ e = "ValueError: concatenate axis 1 is out of bounds") := by
  have hlong := uniq_years_long hyrs
  have hslen : (season_slices var years season_indices).length = years.length :=
    season_slices_length hlong
  have hslice_len : ∀ p ∈ season_slices var years season_indices,
      p.2.shape.length = 4 := by
    intro p hp
    obtain ⟨c, hc⟩ := season_slices_shape hp
    rw [hc, List.length_set]
    exact hndim
  have hspos : 0 < (season_slices var years season_indices).length := by
    rw [hslen]; exact List.length_pos.mpr hne
  have hbuild : ∀ (ttime : List Date) (q : NDF) (rest : List NDF),
      q.shape.length = 4 →
      ∃ e, build_dataarray var years ttime "map" (q :: rest) = .error e
        ∧ (e = "ValueError: could not broadcast ragged input array"
          ∨ e = "ValueError: conflicting sizes for DataArray dimensions") := by
    intro ttime q rest hq4
    rcases stackList_cons q rest with h1 | ⟨s, h1, hsh⟩
    · refine ⟨_, ?_, Or.inl rfl⟩
      unfold build_dataarray
      rw [h1]
    · have hneq : s.shape ≠ [years.length, ttime.length,
          (var.coords.lookup "latitude").getD 0,
          (var.coords.lookup "longitude").getD 0] := by
        intro heq
        have hle := congrArg List.length heq
        rw [hsh] at hle
        simp only [List.length_cons, hq4] at hle
        simp at hle
      refine ⟨"ValueError: conflicting sizes for DataArray dimensions",
        ?_, Or.inr rfl⟩
      unfold build_dataarray
      rw [h1]
      dsimp only
      have hmap : (("map" == "map") = true) := rfl
      rw [if_pos hmap, if_neg hneq]
  cases hsl : season_slices var years season_indices with
  | nil => rw [hsl] at hspos; simp at hspos
  | cons s0 ss =>
    have hs0len : s0.2.shape.length = 4 :=
      hslice_len s0 (by rw [hsl]; exact List.mem_cons_self _ _)
    unfold extract_target_days
    by_cases hfeb : season_indices.contains 1 = true
    · rw [hfeb, if_pos rfl]
      cases hfe : feb_fill_list var years season_indices with
      | error e =>
        have hfe2 := hfe
        unfold feb_fill_list at hfe2
        rw [hsl] at hfe2
        dsimp only [List.head?] at hfe2
        rcases feb_pad_list_error hfe2 with h3 | h3
        · exact ⟨e, rfl, Or.inr (Or.inr (Or.inr (Or.inr (Or.inl h3))))⟩
        · exact ⟨e, rfl, Or.inr (Or.inr (Or.inr (Or.inr (Or.inr h3))))⟩
      | ok tdf =>
        have hfe2 := hfe
        unfold feb_fill_list at hfe2
        rw [hsl] at hfe2
        dsimp only [List.head?] at hfe2
        dsimp only
        cases hli : list_index (2012 - 1) years with
        | none => exact ⟨_, rfl, Or.inl rfl⟩
        | some idx =>
          have hidx := list_index_some_lt hli
          dsimp only
          have hg : ∃ td, (season_slices var years season_indices).get? idx
              = some td := by
            cases hg2 : (season_slices var years season_indices).get? idx with
            | none => rw [List.get?_eq_none] at hg2; omega
            | some td => exact ⟨td, rfl⟩
          obtain ⟨td, htd⟩ := hg
          rw [htd]
          dsimp only
          have hlen : tdf.length = years.length := by
            have h2 := feb_pad_list_length hfe2
            rw [List.length_zip] at h2
            have h3 : (s0 :: ss).length = years.length := by
              rw [← hsl]; exact hslen
            rw [h3, min_self] at h2
            exact h2
          cases htdf : tdf with
          | nil =>
            rw [htdf] at hlen
            simp only [List.length_nil] at hlen
            exact absurd (List.length_eq_zero.mp hlen.symm) hne
          | cons q rest =>
            have hq4 : q.shape.length = 4 := by
              have hzip0 : ((s0 :: ss).zip years).get? 0
                  = some (s0, years.headD 0) := by
                cases years with
                | nil => exact absurd rfl hne
                | cons y0 ys => simp [List.zip_cons_cons]
              obtain ⟨q0, hq0, hcase⟩ := feb_pad_list_get? hfe2 0 hzip0
              rw [htdf] at hq0
              simp only [List.get?_cons_zero, Option.some.injEq] at hq0
              subst hq0
              rcases hcase with ⟨-, hq⟩ | ⟨-, hq⟩
              · rw [hq]; exact hs0len
              · rw [concatAxis1_shape_length hq]; exact hs0len
            obtain ⟨e, hb, hor⟩ := hbuild td.1 q rest hq4
            refine ⟨e, hb, ?_⟩
            rcases hor with h | h
            · exact Or.inr (Or.inr (Or.inl h))
            · exact Or.inr (Or.inr (Or.inr (Or.inl h)))
    · rw [if_neg (by simpa using hfeb)]
      cases hli : list_index (2010 - 1) years with
      | none => exact ⟨_, rfl, Or.inr (Or.inl rfl)⟩
      | some idx =>
        have hidx := list_index_some_lt hli
        dsimp only
        have hg : ∃ td, (season_slices var years season_indices).get? idx
            = some td := by
          cases hg2 : (season_slices var years season_indices).get? idx with
          | none => rw [List.get?_eq_none] at hg2; omega
          | some td => exact ⟨td, rfl⟩
        obtain ⟨td, htd⟩ := hg
        rw [htd]
        dsimp only
        obtain ⟨e, hb, hor⟩ := hbuild td.1 s0.2 (ss.map Prod.snd) hs0len
        refine ⟨e, ?_, ?_⟩
        · rw [hsl, List.map_cons]
          exact hb
        · rcases hor with h | h
          · exact Or.inr (Or.inr (Or.inl h))
          · exact Or.inr (Or.inr (Or.inr (Or.inl h)))

/-- Day count of the DJF season window `[11, 0, 1]` starting in year `yr`:
December of `yr` plus January and February of `yr + 1`. -/
theorem ndays1_DJF (yr : ℕ) :
    ndays1 [11, 0, 1] yr = 62 + (if isLeap (yr + 1) = true then 29 else 28) := by
  show (31 : ℕ) + (31 + ((if isLeap (yr + 1) then 29 else 28) + 0)) = _
  split <;> omega

/-- `isel(time=[0])` keeps exactly one index of a non-empty axis. -/
theorem countKept_isel0 (n : ℕ) :
    countKept n (fun i => i == 0) = if n = 0 then 0 else 1 := by
  induction n with
  | zero => rfl
  | succ m ih =>
    unfold countKept at ih ⊢
    rw [List.range_succ, List.countP_append, ih]
    cases m with
    | zero => simp
    | succ k => simp

/-- Length of a block-uniform flatMap over an index range. -/
theorem length_flatMap_const {α : Type} (f : ℕ → List α) (R L : ℕ)
    (hf : ∀ o, o < R → (f o).length = L) :
    ((List.range R).flatMap f).length = R * L := by
  induction R with
  | zero => simp
  | succ n ih =>
    rw [List.range_succ, List.flatMap_append]
    simp only [List.length_append, List.flatMap_cons, List.flatMap_nil,
      List.append_nil]
    rw [ih (fun o ho => hf o (by omega)), hf n (by omega)]
    ring

/-- Positional access into a block-uniform flatMap over an index range. -/
theorem getD_flatMap_const {α : Type} (f : ℕ → List α) (R L r k : ℕ) (d : α)
    (hf : ∀ o, o < R → (f o).length = L) (hr : r < R) (hk : k < L) :
    ((List.range R).flatMap f).getD (r * L + k) d = (f r).getD k d := by
  induction R with
  | zero => omega
  | succ n ih =>
    rw [List.range_succ, List.flatMap_append]
    simp only [List.flatMap_cons, List.flatMap_nil, List.append_nil]
    by_cases hrn : r < n
    · rw [List.getD_append]
      · exact ih (fun o ho => hf o (by omega)) hrn
      · rw [length_flatMap_const f n L (fun o ho => hf o (by omega))]
        have h1 : (r + 1) * L ≤ n * L := Nat.mul_le_mul_right L (by omega)
        have h2 : (r + 1) * L = r * L + L := by ring
        omega
    · have hrn2 : r = n := by omega
      subst hrn2
      rw [List.getD_append_right]
      · rw [length_flatMap_const f r L (fun o ho => hf o (by omega))]
        congr 1
        omega
      · rw [length_flatMap_const f r L (fun o ho => hf o (by omega))]
        omega

/-- C9 (amended): for season windows in which February falls in the
rolled-over year — the DJF window `[11, 0, 1]` the padding logic was built
for — and full daily coverage of each requested season, a non-leap-February
season is one day shorter than a leap one before padding (90 vs 91), both
have the leap length 91 after padding, and the padded season's final
timestep is NaN in every region row. -/
theorem C9_feb_padding_amended (var : XVar) (years : List ℕ) (R : ℕ)
    (i1 i2 y1 y2 : ℕ) (tdf : List NDF)
    (hdims : var.dims = ["region", "time"])
    (hne : years ≠ [])
    (hy1 : years.get? i1 = some y1) (hy2 : years.get? i2 = some y2)
    (hl1 : isLeap (y1 + 1) = false) (hl2 : isLeap (y2 + 1) = true)
    (hcov : ∀ i yr, years.get? i = some yr →
      ∃ sl, (season_slices var years [11, 0, 1]).get? i = some sl
        ∧ sl.2.shape = [R, ndays1 [11, 0, 1] yr]
        ∧ sl.2.flat.length = R * ndays1 [11, 0, 1] yr)
    (hok : feb_fill_list var years [11, 0, 1] = .ok tdf) :
    (∃ sl1 sl2,
      (season_slices var years [11, 0, 1]).get? i1 = some sl1
      ∧ (season_slices var years [11, 0, 1]).get? i2 = some sl2
      ∧ sl1.2.shape = [R, 90] ∧ sl2.2.shape = [R, 91])
    ∧ (∃ p1 p2, tdf.get? i1 = some p1 ∧ tdf.get? i2 = some p2
        ∧ p1.shape = [R, 91] ∧ p2.shape = [R, 91])
    ∧ (∀ p1, tdf.get? i1 = some p1 → ∀ r, r < R →
        p1.flat.getD (r * 91 + 90) (some 0) = none) := by
  have h0 : ∃ y0, years.get? 0 = some y0 := by
    cases years with
    | nil => exact absurd rfl hne
    | cons a l => exact ⟨a, rfl⟩
  obtain ⟨y0, hy0⟩ := h0
  obtain ⟨sl0, hsl0, hsl0shape, -⟩ := hcov 0 y0 hy0
  obtain ⟨sl1, hsl1, hsl1shape, hsl1flat⟩ := hcov i1 y1 hy1
  obtain ⟨sl2, hsl2, hsl2shape, -⟩ := hcov i2 y2 hy2
  have hnd1 : ndays1 [11, 0, 1] y1 = 90 := by
    rw [ndays1_DJF, hl1]; norm_num
  have hnd2 : ndays1 [11, 0, 1] y2 = 91 := by
    rw [ndays1_DJF, hl2]; norm_num
  rw [hnd1] at hsl1shape hsl1flat
  rw [hnd2] at hsl2shape
  refine ⟨⟨sl1, sl2, hsl1, hsl2, hsl1shape, hsl2shape⟩, ?_⟩
  cases hsl : season_slices var years [11, 0, 1] with
  | nil => rw [hsl] at hsl0; exact Option.noConfusion hsl0
  | cons s0 ss =>
    have hs0 : s0 = sl0 := by
      rw [hsl] at hsl0
      simp only [List.get?_cons_zero, Option.some.injEq] at hsl0
      exact hsl0
    subst hs0
    unfold feb_fill_list at hok
    rw [hsl] at hok
    dsimp only [List.head?] at hok
    have hidxt : var.dims.indexOf "time" = 1 := by rw [hdims]; rfl
    have hnd0pos : ndays1 [11, 0, 1] y0 ≠ 0 := by
      rw [ndays1_DJF]; split <;> omega
    have hfillshape : ((s0.2.filterAxis (var.dims.indexOf "time")
        (fun i => i == 0)).shape) = [R, 1] := by
      unfold NDF.filterAxis
      rw [hidxt, hsl0shape]
      show [R, ndays1 [11, 0, 1] y0].set 1
        (countKept (ndays1 [11, 0, 1] y0) (fun i => i == 0)) = [R, 1]
      rw [countKept_isel0, if_neg hnd0pos]
      rfl
    set fill := fullNDF ((s0.2.filterAxis (var.dims.indexOf "time")
        (fun i => i == 0)).shape) none with hfilldef
    have hfillshape2 : fill.shape = [R, 1] := hfillshape
    have hfillflat : fill.flat = List.replicate R none := by
      show List.replicate ((s0.2.filterAxis (var.dims.indexOf "time")
        (fun i => i == 0)).shape).prod none = _
      rw [hfillshape]
      norm_num [List.prod_cons, List.prod_nil]
    have hzip1 : ((s0 :: ss).zip years).get? i1 = some (sl1, y1) := by
      have hsl1' : (s0 :: ss).get? i1 = some sl1 := by rw [← hsl]; exact hsl1
      exact zip_get?_some hsl1' hy1
    have hzip2 : ((s0 :: ss).zip years).get? i2 = some (sl2, y2) := by
      have hsl2' : (s0 :: ss).get? i2 = some sl2 := by rw [← hsl]; exact hsl2
      exact zip_get?_some hsl2' hy2
    obtain ⟨q1, hq1get, hcase1⟩ := feb_pad_list_get? hok i1 hzip1
    obtain ⟨q2, hq2get, hcase2⟩ := feb_pad_list_get? hok i2 hzip2
    have hq2eq : q2 = sl2.2 := by
      rcases hcase2 with ⟨-, h⟩ | ⟨hfalse, -⟩
      · exact h
      · rw [hl2] at hfalse; exact Bool.noConfusion hfalse
    have hcat : sl1.2.concatAxis1 fill = .ok q1 := by
      rcases hcase1 with ⟨htrue, -⟩ | ⟨-, h⟩
      · rw [hl1] at htrue; exact Bool.noConfusion htrue
      · exact h
    have hq1eq : q1 = ⟨[R, 90 + 1],
        (List.range R).flatMap (fun o =>
          ((sl1.2.flat.drop (o * (90 * List.prod []))).take (90 * List.prod []))
          ++ ((fill.flat.drop (o * (1 * List.prod []))).take (1 * List.prod [])))⟩ := by
      unfold NDF.concatAxis1 at hcat
      rw [hsl1shape, hfillshape2] at hcat
      dsimp only at hcat
      rw [if_pos ⟨rfl, rfl⟩] at hcat
      injection hcat with h
      exact h.symm
    have hrowlen : ∀ o, o < R →
        (((sl1.2.flat.drop (o * (90 * List.prod []))).take (90 * List.prod []))
          ++ ((fill.flat.drop (o * (1 * List.prod []))).take
            (1 * List.prod []))).length = 91 := by
      intro o ho
      rw [List.length_append, List.length_take, List.length_drop,
        List.length_take, List.length_drop, hsl1flat, hfillflat,
        List.length_replicate]
      simp only [List.prod_nil, mul_one, one_mul]
      omega
    refine ⟨⟨q1, q2, hq1get, hq2get, ?_, ?_⟩, ?_⟩
    · rw [hq1eq]
    · rw [hq2eq]; exact hsl2shape
    · intro p1 hp1 r hr
      have hp1q : p1 = q1 := by
        rw [hq1get] at hp1
        injection hp1 with h
        exact h.symm
      subst hp1q
      rw [hq1eq]
      show ((List.range R).flatMap (fun o =>
        ((sl1.2.flat.drop (o * (90 * List.prod []))).take (90 * List.prod []))
        ++ ((fill.flat.drop (o * (1 * List.prod []))).take
          (1 * List.prod [])))).getD (r * 91 + 90) (some 0) = none
      rw [getD_flatMap_const _ R 91 r 90 (some 0) hrowlen hr (by omega)]
      rw [List.getD_append_right]
      · rw [hfillflat, List.drop_replicate, List.take_replicate]
        rw [List.length_take, List.length_drop, hsl1flat]
        simp only [List.prod_nil, mul_one, one_mul]
        have hmin : min (90 : ℕ) (R * 90 - r * 90) = 90 := by
          have h1 : (r + 1) * 90 ≤ R * 90 := Nat.mul_le_mul_right _ (by omega)
          omega
        rw [hmin]
        have hmin2 : min (1 : ℕ) (R - r) = 1 := by omega
        rw [hmin2]
        rfl
      · rw [List.length_take, List.length_drop, hsl1flat]
        simp only [List.prod_nil, mul_one, one_mul]
        have h1 : (r + 1) * 90 ≤ R * 90 := Nat.mul_le_mul_right _ (by omega)
        omega

/-- Concrete refuting input for C9: a season window of February alone
(no December rollover), years 2011 and 2012, with exactly the February
days of each year present (28 + 29 = 57 daily values, one region). -/
def c9_cvar : XVar :=
  ⟨["region", "time"],
    dateRange ⟨2011, 2, 1⟩ 28 ++ dateRange ⟨2012, 2, 1⟩ 29,
    [("region", 1)],
    ⟨[1, 57], List.replicate 57 (some 0)⟩⟩

set_option maxRecDepth 2000000 in
/-- C9 counterexample: with the Feb-only window over years 2011 (non-leap
February, 28 days) and 2012 (leap February, 29 days), the pre-padding
lengths do differ by one, but the padding checks leapness of `year + 1`:
it pads the 2012 season (since 2013 is not a leap year) and leaves the
2011 season alone (since 2012 is), so the padded lengths are 28 and 30 —
not equal — and the NaN column lands on the leap year, not the non-leap
years. -/
theorem C9_counterexample :
    isLeap 2012 = true
    ∧ (season_slices c9_cvar [2011, 2012] [1]).map (fun p => p.2.shape)
        = [[1, 28], [1, 29]]
    ∧ (feb_fill_list c9_cvar [2011, 2012] [1]).map (List.map NDF.shape)
        = .ok [[1, 28], [1, 30]] :=
  ⟨by decide, by with_unfolding_all rfl, by with_unfolding_all rfl⟩

/-- Concrete conforming input for the amended C9: the DJF window over
years 3 and 4, with exactly the season days of each year present
(Dec yr 3 through Feb yr 4 is 91 days since year 4 is leap; Dec yr 4
through Feb yr 5 is 90 days since year 5 is not), one region. -/
def c9_wvar : XVar :=
  ⟨["region", "time"],
    dateRange ⟨3, 12, 1⟩ 91 ++ dateRange ⟨4, 12, 1⟩ 90,
    [("region", 1)],
    ⟨[1, 181], List.replicate 181 (some 0)⟩⟩

def c9_wtdf : List NDF :=
  ((feb_fill_list c9_wvar [3, 4] [11, 0, 1]).toOption).getD []

set_option maxRecDepth 2000000 in
theorem C9_feb_padding_amended_witness :
    (∃ sl1 sl2,
      (season_slices c9_wvar [3, 4] [11, 0, 1]).get? 1 = some sl1
      ∧ (season_slices c9_wvar [3, 4] [11, 0, 1]).get? 0 = some sl2
      ∧ sl1.2.shape = [1, 90] ∧ sl2.2.shape = [1, 91])
    ∧ (∃ p1 p2, c9_wtdf.get? 1 = some p1 ∧ c9_wtdf.get? 0 = some p2
        ∧ p1.shape = [1, 91] ∧ p2.shape = [1, 91])
    ∧ (∀ p1, c9_wtdf.get? 1 = some p1 → ∀ r, r < 1 →
        p1.flat.getD (r * 91 + 90) (some 0) = none) :=
  C9_feb_padding_amended c9_wvar [3, 4] 1 1 0 4 3 c9_wtdf
    rfl (by decide) rfl rfl (by decide) (by decide)
    (by
      intro i yr h
      rcases i with _ | (_ | n)
      · simp only [List.get?_cons_zero, Option.some.injEq] at h
        subst h
        exact ⟨(season_slices c9_wvar [3, 4] [11, 0, 1]).getD 0 ([], ⟨[], []⟩),
          by with_unfolding_all rfl, by with_unfolding_all rfl,
          by with_unfolding_all rfl⟩
      · simp only [List.get?_cons_succ, List.get?_cons_zero,
          Option.some.injEq] at h
        subst h
        exact ⟨(season_slices c9_wvar [3, 4] [11, 0, 1]).getD 1 ([], ⟨[], []⟩),
          by with_unfolding_all rfl, by with_unfolding_all rfl,
          by with_unfolding_all rfl⟩
      · exact Option.noConfusion h)
    (by with_unfolding_all rfl)

/-- Concrete input for C6: a variable carrying a realisation axis
(four named dimensions, a single June day, unit latitude and longitude),
passed to the map-type extraction. -/
def c6_var : XVar :=
  ⟨["realisation", "time", "latitude", "longitude"],
    [⟨2009, 6, 1⟩],
    [("latitude", 1), ("longitude", 1)],
    ⟨[1, 1, 1, 1], [some 0]⟩⟩

theorem C6_map_with_realisation_witness :
    ∃ e, extract_target_days c6_var [2009] [5, 6, 7] "map" = .error e
      ∧ (e = "ValueError: 2011 is not in list"
        ∨ e = "ValueError: 2009 is not in list"
        ∨ e = "ValueError: could not broadcast ragged input array"
        ∨ e = "ValueError: conflicting sizes for DataArray dimensions"
        ∨ e = "ValueError: concatenate input array dimensions must match"
        ∨ e = "ValueError: concatenate axis 1 is out of bounds") :=
  C6_map_with_realisation c6_var [2009] [5, 6, 7] rfl rfl (by decide)
    (by
      intro i hi
      have h0 : i = 0 := by
        simp only [List.length_cons, List.length_nil] at hi
        omega
      subst h0
      with_unfolding_all rfl)
